import Mathlib

/-!
# A verification model of the Hungry Games day-simulation engine

This file is a shallow embedding of `src/js/hungryGames.js`: the entity
model (players, teams, days, event templates), the day simulator
(`nextDay` with its resurrection pass, event-selection loop and
bleed-resolution pass), the reveal stepper (`printEvent`/`printDay`) and
the option editor (`toggleOpt`).

Modelling conventions:
* JavaScript numbers that hold game data are `Int` (counts, ranks,
  `numAlive`) or `Nat` (day number, state index); option values that can
  be overwritten by `toggleOpt` are `JsNum` (a rational or `NaN`).
* `Math.random()` is an external input.  A run is driven by a list of
  naturals; each draw takes the head `k` and reads it as the dyadic
  sample `(k % 1024) / 1024 ∈ [0,1)` (an empty list yields sample `0`).
  `Math.floor(Math.random() * n)` for that sample is exactly
  `(k % 1024) * n / 1024` in natural arithmetic.
* In the source, the user pool holds references to the same objects as
  `includedUsers` and effects are applied through a `findIndex` on the
  user id; the model keeps the pool as a list of player values and
  applies effects by id lookup, which coincides with the reference
  semantics whenever player ids are distinct (they are Discord ids).
* Places where the JavaScript would throw a `TypeError` (indexing an
  array with `-1` or a missing element, `.find` returning `undefined`)
  are modelled as explicit `crash` outcomes carrying the state mutated
  so far, because the exception aborts the rest of the function but
  keeps all mutations already applied.
* Unbounded `while`/`do-while` loops take fuel; running out of fuel is
  the explicit `outOfFuel` outcome (the source would keep looping).
-/

/-- A JavaScript number as stored in the options table: a rational value
or `NaN` (`Number` applied to a non-numeric string). -/
inductive JsNum where
  | nan : JsNum
  | num (q : ℚ) : JsNum
deriving DecidableEq, Repr

/-- `r < p` for a random sample `r` and an option value `p`; every
comparison with `NaN` is false in JavaScript. -/
def JsNum.sampleLt (r : ℚ) : JsNum → Bool
  | .nan => false
  | .num q => r < q

/-- `p > 0` (false for `NaN`). -/
def JsNum.gtZero : JsNum → Bool
  | .nan => false
  | .num q => 0 < q

/-- The per-guild options object (`defaultOptions` lists the keys and the
type of each value). -/
structure Options where
  arenaEvents : Bool
  resurrection : Bool
  includeBots : Bool
  allowNoVictors : Bool
  teamSize : JsNum
  teammatesCollaborate : Bool
  mentionVictor : Bool
  mentionAll : Bool
  mentionEveryoneAtStart : Bool
  delayEvents : JsNum
  delayDays : JsNum
  probabilityOfResurrect : JsNum
  probabilityOfArenaEvent : JsNum
  probabilityOfBleedToDeath : JsNum
deriving DecidableEq, Repr

/-- `defaultOptions` from the source. -/
def defaultOptions : Options :=
  { arenaEvents := true
    resurrection := false
    includeBots := false
    allowNoVictors := true
    teamSize := .num (mkRat 0 1)
    teammatesCollaborate := true
    mentionVictor := true
    mentionAll := false
    mentionEveryoneAtStart := false
    delayEvents := .num (mkRat 3500 1)
    delayDays := .num (mkRat 7000 1)
    probabilityOfResurrect := .num (mkRat 1 10)
    probabilityOfArenaEvent := .num (mkRat 1 4)
    probabilityOfBleedToDeath := .num (mkRat 1 2) }

/-- A participant (constructor `Player` in the source). -/
structure Player where
  id : Nat
  name : String
  avatarURL : String
  living : Bool
  bleeding : Bool
  rank : Int
  state : String
  kills : Int
deriving DecidableEq, Repr

/-- A team (constructor `Team`); `numPool` is the scratch field the event
selector writes onto each team while checking team balance. -/
structure Team where
  id : Nat
  name : String
  players : List Nat
  rank : Int
  numAlive : Int
  numPool : Nat
deriving DecidableEq, Repr

/-- One side (victim or attacker) of an event template. -/
structure EventSide where
  count : Int
  outcome : String
  killer : Bool
deriving DecidableEq, Repr

/-- An event template. -/
structure GameEvent where
  message : String
  victim : EventSide
  attacker : EventSide
deriving DecidableEq, Repr

/-- An arena event: a day-level message plus outcome sub-templates. -/
structure ArenaEvent where
  message : String
  outcomes : List GameEvent
deriving DecidableEq, Repr

/-- A recorded narrative event (`makeSingleEvent` result). -/
structure FinalEvent where
  message : String
  icons : List String
deriving DecidableEq, Repr

/-- `games[id].currentGame` with the `day` object flattened in. -/
structure Game where
  name : String
  inProgress : Bool
  ended : Bool
  includedUsers : List Player
  teams : List Team
  dayNum : Nat
  dayState : Nat
  dayEvents : List FinalEvent
  numAlive : Int
deriving DecidableEq, Repr

/-- `games[id]`: options, per-guild custom events, current game and the
autoplay flag. -/
structure GuildGame where
  options : Options
  customBloodbath : List GameEvent
  customPlayer : List GameEvent
  customArena : List ArenaEvent
  currentGame : Game
  autoPlay : Bool
deriving DecidableEq, Repr

/-- The default event collections loaded from `hgEvents.json`. -/
structure Env where
  defaultBloodbathEvents : List GameEvent
  defaultPlayerEvents : List GameEvent
  defaultArenaEvents : List ArenaEvent
deriving DecidableEq, Repr

/-! ## Randomness -/

/-- The stream of random draws driving a run. -/
abbrev Rng := List Nat

/-- The dyadic sample `(k % 1024) / 1024` standing for one
`Math.random()` result. -/
def jsSample (k : Nat) : ℚ := mkRat (k % 1024 : Nat) 1024

/-- Draw one `Math.random()` sample. -/
def randQ : Rng → ℚ × Rng
  | [] => (jsSample 0, [])
  | k :: r => (jsSample k, r)

/-- `Math.floor(Math.random() * n)`: for the dyadic sample `k/1024` this
is exactly `(k % 1024) * n / 1024`. -/
def randFloorMul : Rng → Nat → Nat × Rng
  | [], _ => (0, [])
  | k :: r, n => ((k % 1024) * n / 1024, r)

/-- `weightedRand` maps one sample through the cumulative weights of
`multiEventUserDistribution` (keys 1,2,3,4,6,7 with weights .66, .27,
.03, .02, .015, .005; the sums total exactly 1, and every sample is
below 1, so the final branch always answers 7). -/
def weightedRandOf (r : ℚ) : Nat :=
  if r ≤ mkRat 66 100 then 1
  else if r ≤ mkRat 93 100 then 2
  else if r ≤ mkRat 96 100 then 3
  else if r ≤ mkRat 98 100 then 4
  else if r ≤ mkRat 995 1000 then 6
  else 7

/-- `weightedRand()` consuming one draw. -/
def weightedRand (rng : Rng) : Nat × Rng :=
  let (q, r) := randQ rng
  (weightedRandOf q, r)

/-! ## String formatting (`formatMultiNames`, `makeSingleEvent`) -/

/-- Characters before the first occurrence of `c` and the rest after it,
or `none` when `c` does not occur. -/
def takeUntil (c : Char) : List Char → Option (List Char × List Char)
  | [] => none
  | a :: rest =>
    if a == c then some ([], rest)
    else (takeUntil c rest).map (fun p => (a :: p.1, p.2))

/-- One pass of the pluralization regex
`/\[V([^\|]*)\|([^\]]*)\]/g` (resp. tag `A`): each occurrence of
`[<tag><singular>|<plural>]` is replaced by the chosen capture. -/
def replaceTagGo (tag : Char) (plural : Bool) : Nat → List Char → List Char
  | 0, cs => cs
  | _ + 1, [] => []
  | f + 1, a :: cs =>
    if a == '[' then
      match cs with
      | [] => [a]
      | b :: cs2 =>
        if b == tag then
          match takeUntil '|' cs2 with
          | some (sing, cs3) =>
            match takeUntil ']' cs3 with
            | some (plur, cs4) => (if plural then plur else sing) ++ replaceTagGo tag plural f cs4
            | none => a :: replaceTagGo tag plural f cs
          | none => a :: replaceTagGo tag plural f cs
        else a :: replaceTagGo tag plural f cs
    else a :: replaceTagGo tag plural f cs

/-- The pluralization substitution on a string. -/
def replaceTag (tag : Char) (plural : Bool) (s : String) : String :=
  String.mk (replaceTagGo tag plural s.data.length s.data)

/-- Whether `pat` is a prefix of the second list. -/
def isPrefixCh : List Char → List Char → Bool
  | [], _ => true
  | _ :: _, [] => false
  | a :: pa, b :: sb => a == b && isPrefixCh pa sb

/-- Whether `pat` occurs in the list. -/
def containsSubCh (pat : List Char) : List Char → Bool
  | [] => pat.isEmpty
  | s@(_ :: rest) => isPrefixCh pat s || containsSubCh pat rest

/-- `indexOf(pat) > -1`. -/
def containsSub (s pat : String) : Bool :=
  containsSubCh pat.data s.data

/-- Replace every (non-overlapping, left-to-right) occurrence of `pat`. -/
def replaceAllGo (pat rep : List Char) : Nat → List Char → List Char
  | 0, s => s
  | _ + 1, [] => []
  | f + 1, s@(c :: rest) =>
    if !pat.isEmpty && isPrefixCh pat s then rep ++ replaceAllGo pat rep f (s.drop pat.length)
    else c :: replaceAllGo pat rep f rest

/-- `String.prototype.replaceAll` for a non-empty pattern. -/
def jsReplaceAll (s pat rep : String) : String :=
  String.mk (replaceAllGo pat.data rep.data s.data.length s.data)

/-- Loop body of `formatMultiNames`: `i` is the current index, `total`
the length of the original list. -/
def formatMultiNamesGo (mention : Bool) (total : Nat) : Nat → List Player → String
  | _, [] => ""
  | i, u :: rest =>
    (if mention then "<@" ++ toString u.id ++ ">" else "`" ++ u.name ++ "`")
      ++ (if (i : Int) == (total : Int) - 2 then ", and "
          else if (i : Int) != (total : Int) - 1 then ", " else "")
      ++ formatMultiNamesGo mention total (i + 1) rest

/-- `formatMultiNames(names, mention)`. -/
def formatMultiNames (names : List Player) (mention : Bool) : String :=
  formatMultiNamesGo mention names.length 0 names

/-- Icon size constant from the source. -/
def iconSize : Nat := 32

/-- Drop the first `?size=<digits>` occurrence (the regex
`/\?size=[0-9]*/` without the global flag). -/
def stripSizeGo : Nat → List Char → List Char
  | 0, s => s
  | _ + 1, [] => []
  | f + 1, s@(c :: rest) =>
    if isPrefixCh "?size=".data s then (s.drop 6).dropWhile Char.isDigit
    else c :: stripSizeGo f rest

/-- `avatarURL.replace(/\?size=[0-9]*/, "") + "?size=" + iconSize` for
one user: strip the first `?size=<digits>` occurrence, then append the
canonical size query. -/
def getMiniIcon (u : Player) : String :=
  String.mk (stripSizeGo u.avatarURL.data.length u.avatarURL.data)
    ++ "?size=" ++ toString iconSize

/-- `getMiniIcons(users)`. -/
def getMiniIcons (users : List Player) : List String :=
  users.map getMiniIcon

/-- `makeSingleEvent(message, effectedUsers, numVictim, numAttacker,
mention, id)`.  The `{dead}` substitution reads the current
`includedUsers` and consumes one `weightedRand` draw. -/
def makeSingleEvent (message : String) (effectedUsers : List Player)
    (numVictim numAttacker : Int) (users : List Player) (mention : Bool)
    (rng : Rng) : FinalEvent × Rng :=
  let effectedVictims := effectedUsers.take numVictim.toNat
  let effectedAttackers := (effectedUsers.drop numVictim.toNat).take numAttacker.toNat
  let m1 := replaceTag 'V' (effectedVictims.length > 1) message
  let m2 := replaceTag 'A' (effectedAttackers.length > 1) m1
  let m3 := jsReplaceAll (jsReplaceAll m2 "{victim}" (formatMultiNames effectedVictims mention))
      "{attacker}" (formatMultiNames effectedAttackers mention)
  let (m4, rng') :=
    if containsSub m3 "{dead}" then
      let (w, r2) := weightedRand rng
      let deadUsers := (users.filter (fun u => !u.living)).take w
      (if deadUsers.length == 0 then jsReplaceAll m3 "{dead}" "an animal"
       else jsReplaceAll m3 "{dead}" (formatMultiNames deadUsers false), r2)
    else (m3, rng)
  ({ message := m4, icons := getMiniIcons (effectedAttackers ++ effectedVictims) }, rng')

/-! ## Per-player effect helpers (`effectUser`, `killUser`, `woundUser`,
`restoreUser`) -/

/-- Number of players whose `living` flag is set. -/
def countLiving (users : List Player) : Nat :=
  users.countP (fun u => u.living)

/-- `effectUser(i, kills)`: find the player by id, set `bleeding` when
already wounded, add the kills, return the updated list, updated player
and index.  `none` models the `TypeError` on `includedUsers[-1]` when
the id is absent. -/
def effectUser (users : List Player) (tid : Nat) (kills : Int) :
    Option (List Player × Player × Nat) :=
  let index := users.findIdx (fun u => u.id == tid)
  if h : index < users.length then
    let u := users.get ⟨index, h⟩
    let u' := { u with
      bleeding := if u.state == "wounded" then true else u.bleeding
      kills := u.kills + kills }
    some (users.set index u', u', index)
  else none

/-- `killUser(i, k)`: effect, then mark dead, assign
`rank = numAlive--`, and update the owning team when team size is
positive (a missing team is only logged). -/
def killUser (opts : Options) (users : List Player) (teams : List Team)
    (numAlive : Int) (tid : Nat) (kills : Int) :
    Option (List Player × List Team × Int) :=
  match effectUser users tid kills with
  | none => none
  | some (users1, u1, index) =>
    let u2 := { u1 with living := false, bleeding := false, state := "dead", rank := numAlive }
    let users2 := users1.set index u2
    let numAlive' := numAlive - 1
    if opts.teamSize.gtZero then
      let ti := teams.findIdx (fun t => t.players.contains u2.id)
      if h : ti < teams.length then
        let t := teams.get ⟨ti, h⟩
        let t1 := { t with numAlive := t.numAlive - 1 }
        let teams1 := teams.set ti t1
        let teams2 :=
          if t1.numAlive == 0 then
            teams1.set ti { t1 with rank := (teams1.countP (fun o => 0 < o.numAlive) : Int) + 1 }
          else teams1
        some (users2, teams2, numAlive')
      else some (users2, teams, numAlive')
    else some (users2, teams, numAlive')

/-- `woundUser(i, k)`: effect, then `state = "wounded"`. -/
def woundUser (users : List Player) (tid : Nat) (kills : Int) : Option (List Player) :=
  match effectUser users tid kills with
  | none => none
  | some (users1, u1, index) => some (users1.set index { u1 with state := "wounded" })

/-- `restoreUser(i, k)`: effect, then `state = "normal"`. -/
def restoreUser (users : List Player) (tid : Nat) (kills : Int) : Option (List Player) :=
  match effectUser users tid kills with
  | none => none
  | some (users1, u1, index) => some (users1.set index { u1 with state := "normal" })

/-! ## Event selection (`nextDay`, lines 675-767) -/

/-- A team's count of eligible pool members: pool entries matching a
team member id and living. -/
def teamNumPool (pool : List Player) (t : Team) : Nat :=
  t.players.countP (fun pid => pool.any (fun p => p.id == pid && p.living))

/-- The team-balance scan: write `numPool` onto each team and return the
updated teams, the largest eligible-member count and the number of teams
with eligible members. -/
def computeTeamPools (teams : List Team) (pool : List Player) : List Team × Nat × Nat :=
  let teams' := teams.map (fun t => { t with numPool := teamNumPool pool t })
  (teams',
   teams'.foldl (fun acc t => if t.numPool > acc then t.numPool else acc) 0,
   teams'.countP (fun t => t.numPool > 0))

/-- The `do … while` re-draw for "at least N" counts: re-draw each
multi side until the resolved totals fit the pool. -/
def resolveMulti (multiA multiV : Bool) (aMin vMin : Int) (poolLen : Nat) :
    Int → Int → Rng → Nat → Option (Int × Int) × Rng
  | _, _, rng, 0 => (none, rng)
  | na, nv, rng, fuel + 1 =>
    let (na1, rng1) :=
      if multiA then
        let (w, r) := weightedRand rng
        ((w : Int) + (aMin - 1), r)
      else (na, rng)
    let (nv1, rng2) :=
      if multiV then
        let (w, r) := weightedRand rng1
        ((w : Int) + (vMin - 1), r)
      else (nv, rng1)
    if na1 + nv1 > (poolLen : Int) then
      resolveMulti multiA multiV aMin vMin poolLen na1 nv1 rng2 fuel
    else (some (na1, nv1), rng2)

/-- Outcome of one iteration of the selection loop. -/
inductive SelKind where
  | reject (rng : Rng)
  | abort (rng : Rng)
  | stuck (rng : Rng)
  | accept (ev : GameEvent) (nv na : Int) (rng : Rng)
deriving DecidableEq, Repr

/-- The team-balance and no-victors checks on a drawn template with
resolved counts (`nextDay`, lines 725-767): `numAttacker`/`numVictim`
are the JavaScript locals of the same names. -/
def selectChecks (opts : Options) (g : Game) (pool : List Player)
    (eventTry : GameEvent) (numAttacker numVictim : Int) (rng2 : Rng) :
    List Team × SelKind :=
  match (if opts.teammatesCollaborate && opts.teamSize.gtZero then
      computeTeamPools g.teams pool
    else (g.teams, 0, 0)) with
  | (teams1, largestSize, numTeams) =>
    if opts.teammatesCollaborate && opts.teamSize.gtZero
        && numTeams < 2
        && (eventTry.attacker.outcome == "dies" || eventTry.victim.outcome == "dies") then
      (teams1, .reject rng2)
    else if opts.teammatesCollaborate && opts.teamSize.gtZero
        && !((numAttacker ≤ (largestSize : Int)
                && numVictim ≤ (pool.length : Int) - (largestSize : Int))
             || (numVictim ≤ (largestSize : Int)
                && numAttacker ≤ (pool.length : Int) - (largestSize : Int))) then
      (teams1, .reject rng2)
    else if !opts.allowNoVictors
        && g.numAlive
            - (if eventTry.victim.outcome == "dies" then numVictim else 0)
            - (if eventTry.attacker.outcome == "dies" then numAttacker else 0) < 1 then
      (teams1, .reject rng2)
    else (teams1, .accept eventTry numVictim numAttacker rng2)

/-- Resolution of the "at least N" counts for a drawn template
(`nextDay`, lines 714-723), handing the resolved counts to the checks. -/
def selectResolve (opts : Options) (g : Game) (pool : List Player)
    (eventTry : GameEvent) (rng1 : Rng) (redrawFuel : Nat) : List Team × SelKind :=
  match (if eventTry.attacker.count < 0 || eventTry.victim.count < 0 then
      resolveMulti (eventTry.attacker.count < 0) (eventTry.victim.count < 0)
        (-eventTry.attacker.count) (-eventTry.victim.count)
        pool.length eventTry.attacker.count eventTry.victim.count rng1 redrawFuel
    else (some (eventTry.attacker.count, eventTry.victim.count), rng1)) with
  | (none, rng2) => (g.teams, .stuck rng2)
  | (some (numAttacker, numVictim), rng2) =>
    selectChecks opts g pool eventTry numAttacker numVictim rng2

/-- One iteration of the `while (userPool.length > 0)` selection loop:
draw a template, compute minimal participants, fail the day after the
counter passes 100, reject a template that does not fit the pool, the
team-balance rules or the no-victors rule, and otherwise accept it with
resolved counts.  `cnt` is the already-incremented `loop` counter.
Only the `teams` field of the game can change (the `numPool` scratch
writes), so it is returned beside the outcome. -/
def selectStep (opts : Options) (g : Game) (pool : List Player)
    (eventPool : List GameEvent) (cnt : Nat) (rng : Rng) (redrawFuel : Nat) :
    List Team × SelKind :=
  match randFloorMul rng eventPool.length with
  | (eventIndex, rng1) =>
    match eventPool.get? eventIndex with
    | none => (g.teams, .reject rng1)
    | some eventTry =>
      if cnt > 100 then (g.teams, .abort rng1)
      else if ((if eventTry.victim.count < 0 then -eventTry.victim.count
            else eventTry.victim.count)
          + (if eventTry.attacker.count < 0 then -eventTry.attacker.count
            else eventTry.attacker.count) : Int) > (pool.length : Int) then
        (g.teams, .reject rng1)
      else selectResolve opts g pool eventTry rng1 redrawFuel

/-! ## Participant picking (`nextDay`, lines 772-810) -/

/-- Index of the first team containing the id, `-1` when none
(JavaScript `findIndex`). -/
def teamIdxOf (teams : List Team) (pid : Nat) : Int :=
  let i := teams.findIdx (fun t => t.players.contains pid)
  if i < teams.length then (i : Int) else -1

/-- `Array.prototype.splice(i, 1)` returning the removed element: a
negative index counts from the end (clamped at 0); an index past the end
removes nothing, which makes the caller read `undefined` (`none`). -/
def spliceOne (l : List Player) (i : Int) : Option Player × List Player :=
  let j : Nat := if i < 0 then ((l.length : Int) + i).toNat else i.toNat
  if h : j < l.length then (some (l.get ⟨j, h⟩), l.take j ++ l.drop (j + 1))
  else (none, l)

/-- `validTeam`/`isAttacker`: the first team for which the drawn counts
fit "this team vs. the rest" in either orientation. -/
def chooseValidTeamGo (poolLen : Nat) (na nv : Int) : Nat → List Team → Int × Bool
  | _, [] => (-1, false)
  | i, t :: rest =>
    if na ≤ (t.numPool : Int) && nv ≤ (poolLen : Int) - (t.numPool : Int) then ((i : Int), true)
    else if nv ≤ (t.numPool : Int) && na ≤ (poolLen : Int) - (t.numPool : Int) then ((i : Int), false)
    else chooseValidTeamGo poolLen na nv (i + 1) rest

/-- `findMatching(match)`: first pool index whose team-membership status
relative to `validTeam` agrees with `match`, `-1` when none. -/
def findMatching (teams : List Team) (validTeam : Int) (mtch : Bool)
    (pool : List Player) : Int :=
  let i := pool.findIdx (fun p => (teamIdxOf teams p.id == validTeam) == mtch)
  if i < pool.length then (i : Int) else -1

/-- Team-aware picking: `i` counts picks, victims fill first. -/
def pickTeamsGo (teams : List Team) (validTeam : Int) (isAttacker : Bool) (nv : Int) :
    Nat → Nat → List Player → Option (List Player × List Player)
  | _, 0, pool => some ([], pool)
  | i, k + 1, pool =>
    let mtch := ((i : Int) < nv && !isAttacker) || (!((i : Int) < nv) && isAttacker)
    match spliceOne pool (findMatching teams validTeam mtch pool) with
    | (none, _) => none
    | (some u, pool1) =>
      match pickTeamsGo teams validTeam isAttacker nv (i + 1) k pool1 with
      | none => none
      | some (es, pool2) => some (u :: es, pool2)

/-- Uniform picking: splice a random pool index per pick. -/
def pickRandomGo : Nat → List Player → Rng → Option (List Player × List Player × Rng)
  | 0, pool, rng => some ([], pool, rng)
  | k + 1, pool, rng =>
    let (idx, rng1) := randFloorMul rng pool.length
    match spliceOne pool (idx : Int) with
    | (none, _) => none
    | (some u, pool1) =>
      match pickRandomGo k pool1 rng1 with
      | none => none
      | some (es, pool2, rng2) => some (u :: es, pool2, rng2)

/-- Choose the `numAttacker + numVictim` effected users from the pool
(team-aware when team collaboration is active). -/
def pickEffected (opts : Options) (teams : List Team) (pool : List Player)
    (nv na : Int) (rng : Rng) : Option (List Player × List Player × Rng) :=
  if opts.teammatesCollaborate && opts.teamSize.gtZero then
    let (validTeam, isAttacker) := chooseValidTeamGo pool.length na nv 0 teams
    match pickTeamsGo teams validTeam isAttacker nv 0 (na + nv).toNat pool with
    | none => none
    | some (es, pool1) => some (es, pool1, rng)
  else pickRandomGo (na + nv).toNat pool rng

/-! ## Applying an accepted event (`nextDay`, lines 862-904) -/

/-- Apply one side's outcome to each of its targets in order
(`numKills` is the other side's count when this side is the killer). -/
def applySide (opts : Options) (side : EventSide) (othersCount : Int) :
    List Player → List Player × List Team × Int → Option (List Player × List Team × Int)
  | [], st => some st
  | u :: rest, (users, teams, numAlive) =>
    let k : Int := if side.killer then othersCount else 0
    let step : Option (List Player × List Team × Int) :=
      if side.outcome == "dies" then killUser opts users teams numAlive u.id k
      else if side.outcome == "wounded" then
        (woundUser users u.id k).map (fun us => (us, teams, numAlive))
      else if side.outcome == "thrives" then
        (restoreUser users u.id k).map (fun us => (us, teams, numAlive))
      else (effectUser users u.id k).map (fun r => (r.1, teams, numAlive))
    match step with
    | none => none
    | some st1 => applySide opts side othersCount rest st1

/-- Apply an accepted event: victims then attackers, then record the
Final Event. -/
def applyEvent (opts : Options) (g : Game) (ev : GameEvent)
    (effected : List Player) (nv na : Int) (rng : Rng) : Option (Game × Rng) :=
  let victims := effected.take nv.toNat
  let attackers := (effected.drop nv.toNat).take na.toNat
  match applySide opts ev.victim na victims (g.includedUsers, g.teams, g.numAlive) with
  | none => none
  | some (users1, teams1, numAlive1) =>
    match applySide opts ev.attacker nv attackers (users1, teams1, numAlive1) with
    | none => none
    | some (users2, teams2, numAlive2) =>
      let (fe, rng') := makeSingleEvent ev.message effected nv na users2 opts.mentionAll rng
      let g' := { g with
        includedUsers := users2
        teams := teams2
        numAlive := numAlive2
        dayEvents := g.dayEvents ++ [fe] }
      some (g', rng')

/-! ## The day event loop -/

/-- Result of the event loop. -/
inductive LoopRes where
  | finished (g : Game) (rng : Rng)
  | noValid (g : Game) (rng : Rng)
  | crashed (g : Game) (rng : Rng)
  | outOfFuel (g : Game) (rng : Rng)
deriving DecidableEq, Repr

/-- The `while (userPool.length > 0)` loop.  On `abort` the source
replies "A stupid error happened :(", sets `day.state = 0` and returns,
keeping everything applied so far. -/
def eventLoop (opts : Options) (eventPool : List GameEvent) :
    Nat → Game → List Player → Nat → Rng → LoopRes
  | 0, g, _, _, rng => .outOfFuel g rng
  | fuel + 1, g, pool, cnt, rng =>
    if pool.length == 0 then .finished g rng
    else
      match selectStep opts g pool eventPool (cnt + 1) rng (rng.length + 1) with
      | (teams', kind) =>
        let g1 := { g with teams := teams' }
        match kind with
        | .reject rng1 => eventLoop opts eventPool fuel g1 pool (cnt + 1) rng1
        | .abort rng1 => .noValid { g1 with dayState := 0 } rng1
        | .stuck rng1 => .outOfFuel g1 rng1
        | .accept ev nv na rng1 =>
          match pickEffected opts g1.teams pool nv na rng1 with
          | none => .crashed g1 rng1
          | some (effected, pool1, rng2) =>
            match applyEvent opts g1 ev effected nv na rng2 with
            | none => .crashed g1 rng2
            | some (g2, rng3) => eventLoop opts eventPool fuel g2 pool1 0 rng3

/-! ## Resurrection pass (`nextDay`, lines 622-650) -/

/-- Result of a phase that can hit a JavaScript `TypeError`. -/
inductive PhaseRes where
  | ok (g : Game) (rng : Rng)
  | crash (g : Game) (rng : Rng)
deriving DecidableEq, Repr

/-- The resurrection pass: with the resurrection option on and a
successful draw, revive one random dead player, bump the ranks of dead
players ranked better, set the revived rank to 1, increment `numAlive`,
record the event, then update the owning team.  The team lookup is
unguarded in the source, so a teamless revived player (in particular any
player when teams are empty) crashes after the player, counter and
event updates have been applied. -/
def resurrectPhase (opts : Options) (g : Game) (rng : Rng) : PhaseRes :=
  if opts.resurrection then
    let (q, rng1) := randQ rng
    if JsNum.sampleLt q opts.probabilityOfResurrect then
      let deadPool := g.includedUsers.enum.filter (fun p => !p.2.living)
      if deadPool.length > 0 then
        let (j, rng2) := randFloorMul rng1 deadPool.length
        match deadPool.get? j with
        | none => .ok g rng2
        | some (ri, res0) =>
          let oldRank := res0.rank
          let users1 := g.includedUsers.set ri { res0 with living := true, state := "zombie" }
          let users2 := users1.map (fun u =>
            if !u.living && u.rank < oldRank then { u with rank := u.rank + 1 } else u)
          let res1 := { res0 with living := true, state := "zombie", rank := 1 }
          let users3 := users2.set ri res1
          let (fe, rng3) := makeSingleEvent
            "{victim} has returned from the dead and was put back into the arena!"
            [res1] 1 0 users3 opts.mentionAll rng2
          let g1 := { g with
            includedUsers := users3
            numAlive := g.numAlive + 1
            dayEvents := g.dayEvents ++ [fe] }
          let ti := g.teams.findIdx (fun t => t.players.contains res1.id)
          if h : ti < g.teams.length then
            let t := g.teams.get ⟨ti, h⟩
            let t1 := { t with numAlive := t.numAlive + 1 }
            let teams1 := g.teams.set ti t1
            let teams2 := teams1.map (fun o =>
              if o.numAlive == 0 && o.rank < t1.rank then { o with rank := o.rank + 1 } else o)
            .ok { g1 with teams := teams2 } rng3
          else .crash g1 rng3
      else .ok g rng1
    else .ok g rng1
  else .ok g rng

/-! ## Choice of the day's template set (`nextDay`, lines 655-674) -/

/-- Which template set the day uses. -/
inductive PoolChoice where
  | bloodbath
  | player
  | arena (outcomes : List GameEvent)
  | crashArena
deriving DecidableEq, Repr

/-- Select the day's template set from the already-incremented day
number: bloodbath templates when `day.num == 1`, otherwise either an
arena event's outcomes (pushing the arena announcement) or the player
templates.  Drawing from an empty arena collection crashes on
`undefined.message`. -/
def choosePool (env : Env) (gg : GuildGame) (g : Game) (rng : Rng) :
    PoolChoice × Game × Rng :=
  if g.dayNum == 1 then (.bloodbath, g, rng)
  else
    let (doArena, rng1) :=
      if gg.options.arenaEvents then
        let (q, r) := randQ rng
        (JsNum.sampleLt q gg.options.probabilityOfArenaEvent, r)
      else (false, rng)
    if doArena then
      let arenaPool := env.defaultArenaEvents ++ gg.customArena
      let (idx, rng2) := randFloorMul rng1 arenaPool.length
      match arenaPool.get? idx with
      | none => (.crashArena, g, rng2)
      | some ae =>
        let (fe, rng3) := makeSingleEvent ("**___" ++ ae.message ++ "___**")
          [] 0 0 g.includedUsers false rng2
        (.arena ae.outcomes, { g with dayEvents := g.dayEvents ++ [fe] }, rng3)
    else (.player, g, rng1)

/-- The event collection for a pool choice. -/
def poolEvents (env : Env) (gg : GuildGame) : PoolChoice → List GameEvent
  | .bloodbath => env.defaultBloodbathEvents ++ gg.customBloodbath
  | .player => env.defaultPlayerEvents ++ gg.customPlayer
  | .arena outs => outs
  | .crashArena => []

/-! ## Bleed-resolution pass (`nextDay`, lines 906-950) -/

/-- State threaded through the bleed pass: the processed players, teams,
the live counter, the aggregate died/recovered lists and the rng. -/
structure BleedSt where
  users : List Player
  teams : List Team
  numAlive : Int
  bled : List Player
  recovered : List Player
  rng : Rng
deriving DecidableEq, Repr

/-- Result of the bleed pass; `crash` is the unguarded team lookup (it
fires after the dying player and `numAlive` have been updated). -/
inductive BleedRes where
  | ok (st : BleedSt)
  | crash (st : BleedSt)
deriving DecidableEq, Repr

/-- The `includedUsers.forEach` of the bleed pass, position by position:
every bleeding living player draws once and either dies (when the
no-victors policy allows) or recovers; both branches clear `bleeding`. -/
def bleedGo (opts : Options) : List Player → BleedSt → BleedRes
  | [], st => .ok st
  | u :: rest, st =>
    if u.bleeding && u.living then
      let (q, rng1) := randQ st.rng
      if JsNum.sampleLt q opts.probabilityOfBleedToDeath
          && (opts.allowNoVictors || decide (st.numAlive > 1)) then
        let u' := { u with living := false, bleeding := false, state := "dead", rank := st.numAlive }
        let numAlive' := st.numAlive - 1
        let ti := st.teams.findIdx (fun t => t.players.contains u.id)
        if h : ti < st.teams.length then
          let t := st.teams.get ⟨ti, h⟩
          let t1 := { t with numAlive := t.numAlive - 1 }
          let teams1 := st.teams.set ti t1
          let teams2 :=
            if t1.numAlive == 0 then
              teams1.set ti { t1 with rank := (teams1.countP (fun o => 0 < o.numAlive) : Int) + 1 }
            else teams1
          bleedGo opts rest { st with
            users := st.users ++ [u']
            teams := teams2
            numAlive := numAlive'
            bled := st.bled ++ [u']
            rng := rng1 }
        else
          .crash { st with
            users := st.users ++ [u'] ++ rest
            numAlive := numAlive'
            bled := st.bled ++ [u']
            rng := rng1 }
      else
        let u' := { u with bleeding := false, state := "normal" }
        bleedGo opts rest { st with
          users := st.users ++ [u']
          recovered := st.recovered ++ [u']
          rng := rng1 }
    else bleedGo opts rest { st with users := st.users ++ [u] }

/-- The bleed pass on a game, appending the aggregate recovered/died
Final Events on success. -/
def bleedPhase (opts : Options) (g : Game) (rng : Rng) : PhaseRes :=
  match bleedGo opts g.includedUsers
      { users := [], teams := g.teams, numAlive := g.numAlive,
        bled := [], recovered := [], rng := rng } with
  | .crash st =>
    .crash { g with includedUsers := st.users, teams := st.teams, numAlive := st.numAlive } st.rng
  | .ok st =>
    let g1 := { g with includedUsers := st.users, teams := st.teams, numAlive := st.numAlive }
    let (g2, rng2) :=
      if st.recovered.length > 0 then
        let (fe, r) := makeSingleEvent "{victim} manage[Vs|] to patch their wounds."
          st.recovered (st.recovered.length : Int) 0 g1.includedUsers opts.mentionAll st.rng
        ({ g1 with dayEvents := g1.dayEvents ++ [fe] }, r)
      else (g1, st.rng)
    let (g3, rng3) :=
      if st.bled.length > 0 then
        let (fe, r) := makeSingleEvent "{victim} fail[Vs|] to tend to their wounds and die[Vs|]."
          st.bled (st.bled.length : Int) 0 g2.includedUsers opts.mentionAll rng2
        ({ g2 with dayEvents := g2.dayEvents ++ [fe] }, r)
      else (g2, rng2)
    .ok g3 rng3

/-! ## `nextDay` -/

/-- The observable outcome of a `nextDay` call; the first four
constructors are the early returns (each standing for the reply the
source sends, or - for `resumedReveal` - for silently restarting the
reveal interval). -/
inductive NextDayRes where
  | mustStartGame
  | alreadySimulating
  | maybeCrashed
  | resumedReveal
  | noValidEvent
  | crashed
  | completed
  | outOfFuel
deriving DecidableEq, Repr

/-- The day's trunk once the template set is fixed: the event loop over
the living pool followed (when the pool empties normally) by the bleed
pass and the `day.state = 2` hand-off to the reveal timer. -/
def dayTail (opts : Options) (evs : List GameEvent) (fuel : Nat) (g2 : Game)
    (pool : List Player) (rng2 : Rng) (gg : GuildGame) (hasInterval : Bool) :
    NextDayRes × GuildGame × Bool × Rng :=
  match eventLoop opts evs fuel g2 pool 0 rng2 with
  | .noValid g3 rng3 => (.noValidEvent, { gg with currentGame := g3 }, hasInterval, rng3)
  | .crashed g3 rng3 => (.crashed, { gg with currentGame := g3 }, hasInterval, rng3)
  | .outOfFuel g3 rng3 => (.outOfFuel, { gg with currentGame := g3 }, hasInterval, rng3)
  | .finished g3 rng3 =>
    match bleedPhase opts g3 rng3 with
    | .crash g4 rng4 => (.crashed, { gg with currentGame := g4 }, hasInterval, rng4)
    | .ok g4 rng4 =>
      (.completed, { gg with currentGame := { g4 with dayState := 2 } }, true, rng4)

/-- `nextDay(msg, id)`.  The extra `Bool` argument and result model
`intervals[id]` (whether a reveal interval is registered). -/
def nextDay (env : Env) (gg : GuildGame) (hasInterval : Bool) (rng : Rng)
    (fuel : Nat) : NextDayRes × GuildGame × Bool × Rng :=
  if !gg.currentGame.inProgress then (.mustStartGame, gg, hasInterval, rng)
  else if gg.currentGame.dayState != 0 then
    if hasInterval then (.alreadySimulating, gg, hasInterval, rng)
    else if gg.currentGame.dayState == 1 then (.maybeCrashed, gg, hasInterval, rng)
    else (.resumedReveal, gg, true, rng)
  else
    let g0 := { gg.currentGame with
      dayState := 1
      dayNum := gg.currentGame.dayNum + 1
      dayEvents := [] }
    match resurrectPhase gg.options g0 rng with
    | .crash g1 rng1 => (.crashed, { gg with currentGame := g1 }, hasInterval, rng1)
    | .ok g1 rng1 =>
      let pool := g1.includedUsers.filter (fun u => u.living)
      match choosePool env gg g1 rng1 with
      | (.crashArena, g2, rng2) => (.crashed, { gg with currentGame := g2 }, hasInterval, rng2)
      | (choice, g2, rng2) =>
        dayTail gg.options (poolEvents env gg choice) fuel g2 pool rng2 gg hasInterval

/-! ## `printDay` and `printEvent` -/

/-- The status-list sort of `printDay`: order players by the index of
their team (`findIndex` over the teams, `-1` for teamless), then by id. -/
def sortUsersByStatus (teams : List Team) (users : List Player) : List Player :=
  List.insertionSort
    (fun a b => teamIdxOf teams a.id < teamIdxOf teams b.id ∨
      (teamIdxOf teams a.id = teamIdxOf teams b.id ∧ a.id ≤ b.id)) users

/-- `printDay(msg, id)`: count the living, detect the win conditions
(one team left, one player left, none left), build the ranking displays
(whose `sort` calls mutate the player and team arrays), and reset
`day.state` to 0.  The returned `Bool` is the source's own invariant
assertion: false means it logged "Realtime alive count is incorrect!". -/
def printDay (gg : GuildGame) : GuildGame × Bool :=
  let g := gg.currentGame
  let numAlive := countLiving g.includedUsers
  let numTeams := if gg.options.teamSize.gtZero then g.teams.countP (fun t => 0 < t.numAlive) else 0
  let invOk := g.numAlive == (numAlive : Int)
  let endedUpdate : Game := { g with inProgress := false, ended := true }
  let (g1, auto1) :=
    if numTeams == 1 then (endedUpdate, false)
    else if numAlive == 1 then (endedUpdate, false)
    else if numAlive < 1 then (endedUpdate, false)
    else
      (if gg.options.teamSize.gtZero then
        { g with includedUsers := sortUsersByStatus g.teams g.includedUsers }
       else g, gg.autoPlay)
  let g2 :=
    if g1.ended then
      { g1 with
        includedUsers := List.insertionSort (fun a b => a.rank ≤ b.rank) g1.includedUsers
        teams :=
          if gg.options.teamSize.gtZero then
            List.insertionSort (fun a b => a.id ≤ b.id)
              (List.insertionSort (fun a b => a.rank ≤ b.rank) g1.teams)
          else g1.teams }
    else g1
  ({ gg with currentGame := { g2 with dayState := 0 }, autoPlay := auto1 }, invOk)

/-- The observable outcome of one `printEvent` call. -/
inductive RevealRes where
  | finishedDay
  | revealed
  | crashedUndefined
deriving DecidableEq, Repr

/-- `printEvent(msg, id)`: with `index = day.state - 2`, either finish
the day (`index == events.length`: clear the interval and run
`printDay`), or send event `index` and advance `day.state`.  Any other
index reads `events[index].icons` off `undefined` and throws before the
state increment. -/
def printEvent (gg : GuildGame) (hasInterval : Bool) : RevealRes × GuildGame × Bool :=
  let g := gg.currentGame
  let index : Int := (g.dayState : Int) - 2
  if index == (g.dayEvents.length : Int) then
    let (gg1, _invOk) := printDay gg
    (.finishedDay, gg1, false)
  else if 0 ≤ index && index < (g.dayEvents.length : Int) then
    (.revealed, { gg with currentGame := { g with dayState := g.dayState + 1 } }, hasInterval)
  else (.crashedUndefined, gg, hasInterval)

/-! ## `toggleOpt` -/

/-- A JavaScript value as it flows through `toggleOpt`. -/
inductive JsVal where
  | undef
  | str (s : String)
  | num (v : JsNum)
  | bool (b : Bool)
deriving DecidableEq, Repr

/-- The `typeof` operator on a `JsVal`. -/
def jsTypeof : JsVal → String
  | .undef => "undefined"
  | .str _ => "string"
  | .num _ => "number"
  | .bool _ => "boolean"

/-- The value of an all-digit character run, `none` otherwise. -/
def digitsVal (cs : List Char) : Option Nat :=
  if cs.isEmpty then none
  else if cs.all (fun c => c.isDigit) then
    some (cs.foldl (fun acc c => acc * 10 + (c.toNat - 48)) 0)
  else none

/-- Parse an unsigned decimal literal (`digits`, `digits.digits`,
`.digits`, `digits.`). -/
def parseDecimal (cs : List Char) : Option ℚ :=
  match takeUntil '.' cs with
  | none => (digitsVal cs).map (fun n => mkRat n 1)
  | some (ip, fp) =>
    if ip.all (fun c => c.isDigit) && fp.all (fun c => c.isDigit)
        && !(ip.isEmpty && fp.isEmpty) then
      some (mkRat ((digitsVal ip).getD 0 * 10 ^ fp.length + (digitsVal fp).getD 0) (10 ^ fp.length))
    else none

/-- `Number(s)` on a string: trimmed-empty is 0, signed decimal
literals parse, anything else (e.g. `"abc"`) is `NaN`.  Exotic numeric
forms (hexadecimal, exponents) are not needed here. -/
def parseJsNumber (s : String) : JsNum :=
  let cs := ((s.data.dropWhile (fun c => c == ' ')).reverse.dropWhile (fun c => c == ' ')).reverse
  match cs with
  | [] => .num 0
  | '-' :: rest =>
    match parseDecimal rest with
    | some q => .num (-q)
    | none => .nan
  | '+' :: rest =>
    match parseDecimal rest with
    | some q => .num q
    | none => .nan
  | _ =>
    match parseDecimal cs with
    | some q => .num q
    | none => .nan

/-- The option names whose default value has `typeof` "number". -/
def numberOptionNames : List String :=
  ["teamSize", "delayEvents", "delayDays", "probabilityOfResurrect",
   "probabilityOfArenaEvent", "probabilityOfBleedToDeath"]

/-- The option names whose default value has `typeof` "boolean". -/
def booleanOptionNames : List String :=
  ["arenaEvents", "resurrection", "includeBots", "allowNoVictors",
   "teammatesCollaborate", "mentionVictor", "mentionAll",
   "mentionEveryoneAtStart"]

/-- Read a numeric option by name. -/
def Options.getNum (o : Options) (name : String) : JsNum :=
  if name == "teamSize" then o.teamSize
  else if name == "delayEvents" then o.delayEvents
  else if name == "delayDays" then o.delayDays
  else if name == "probabilityOfResurrect" then o.probabilityOfResurrect
  else if name == "probabilityOfArenaEvent" then o.probabilityOfArenaEvent
  else if name == "probabilityOfBleedToDeath" then o.probabilityOfBleedToDeath
  else .nan

/-- Write a numeric option by name. -/
def Options.setNum (o : Options) (name : String) (v : JsNum) : Options :=
  if name == "teamSize" then { o with teamSize := v }
  else if name == "delayEvents" then { o with delayEvents := v }
  else if name == "delayDays" then { o with delayDays := v }
  else if name == "probabilityOfResurrect" then { o with probabilityOfResurrect := v }
  else if name == "probabilityOfArenaEvent" then { o with probabilityOfArenaEvent := v }
  else if name == "probabilityOfBleedToDeath" then { o with probabilityOfBleedToDeath := v }
  else o

/-- Read a boolean option by name. -/
def Options.getBool (o : Options) (name : String) : Bool :=
  if name == "arenaEvents" then o.arenaEvents
  else if name == "resurrection" then o.resurrection
  else if name == "includeBots" then o.includeBots
  else if name == "allowNoVictors" then o.allowNoVictors
  else if name == "teammatesCollaborate" then o.teammatesCollaborate
  else if name == "mentionVictor" then o.mentionVictor
  else if name == "mentionAll" then o.mentionAll
  else if name == "mentionEveryoneAtStart" then o.mentionEveryoneAtStart
  else false

/-- Write a boolean option by name. -/
def Options.setBool (o : Options) (name : String) (b : Bool) : Options :=
  if name == "arenaEvents" then { o with arenaEvents := b }
  else if name == "resurrection" then { o with resurrection := b }
  else if name == "includeBots" then { o with includeBots := b }
  else if name == "allowNoVictors" then { o with allowNoVictors := b }
  else if name == "teammatesCollaborate" then { o with teammatesCollaborate := b }
  else if name == "mentionVictor" then { o with mentionVictor := b }
  else if name == "mentionAll" then { o with mentionAll := b }
  else if name == "mentionEveryoneAtStart" then { o with mentionEveryoneAtStart := b }
  else o

/-- The reply `toggleOpt` sends. -/
inductive OptReply where
  | listOptions
  | mustEndGame
  | invalidOption
  | invalidNumberValue (name : String)
  | setNumber (name : String) (oldVal newVal : JsNum) (teamSizeNote : Bool)
  | invalidBooleanValue (name : String)
  | setBoolean (name : String) (oldVal newVal : Bool)
  | notImplemented
deriving DecidableEq, Repr

/-- `toggleOpt(msg, id)` from the option-name guard on (`optName` and
`valStr` are the first and second words of the message text, `none` when
missing).  In the numeric branch the source coerces with
`value = Number(value)` and then tests `typeof value !== 'number'` -
which is false even for `NaN`, since `typeof NaN` is `"number"` - so the
rejection reply for a non-numeric value is unreachable and the coerced
value is stored as-is. -/
def toggleOpt (gg : GuildGame) (optName : Option String) (valStr : Option String) :
    OptReply × GuildGame :=
  match optName with
  | none => (.listOptions, gg)
  | some name =>
    if name.length == 0 then (.listOptions, gg)
    else if gg.currentGame.inProgress then (.mustEndGame, gg)
    else if numberOptionNames.contains name then
      let value : JsVal := .num (match valStr with | none => .nan | some s => parseJsNumber s)
      if jsTypeof value != "number" then (.invalidNumberValue name, gg)
      else
        match value with
        | .num v =>
          (.setNumber name (gg.options.getNum name) v (name == "teamSize"),
           { gg with options := gg.options.setNum name v })
        | _ => (.invalidNumberValue name, gg)
    else if booleanOptionNames.contains name then
      let value0 : JsVal := match valStr with | none => .undef | some s => .str s
      let value : JsVal :=
        if value0 == .str "true" || value0 == .str "false" then .bool (value0 == .str "true")
        else value0
      if jsTypeof value != "boolean" then (.invalidBooleanValue name, gg)
      else
        match value with
        | .bool b =>
          (.setBoolean name (gg.options.getBool name) b,
           { gg with options := gg.options.setBool name b })
        | _ => (.invalidBooleanValue name, gg)
    else (.invalidOption, gg)

/-! ## Concrete fixtures (closed instances of the theorems below) -/

/-- Whether a selection outcome is the day-failing abort. -/
def SelKind.isAbort : SelKind → Bool
  | .abort _ => true
  | _ => false

/-- A healthy living participant. -/
def pA : Player := { id := 1, name := "Alice", avatarURL := "a", living := true, bleeding := false, rank := 1, state := "normal", kills := 0 }

/-- A second healthy living participant. -/
def pB : Player := { id := 2, name := "Bob", avatarURL := "b", living := true, bleeding := false, rank := 1, state := "normal", kills := 0 }

/-- A wounded participant (for the "thrives" outcome). -/
def pW : Player := { id := 3, name := "Wynn", avatarURL := "w", living := true, bleeding := false, rank := 1, state := "wounded", kills := 0 }

/-- A one-victim kill template. -/
def evKill : GameEvent := { message := "{victim} dies", victim := { count := 1, outcome := "dies", killer := false }, attacker := { count := 0, outcome := "nothing", killer := false } }

/-- A five-victim template (cannot fit a pool of two). -/
def evBig : GameEvent := { message := "big", victim := { count := 5, outcome := "nothing", killer := false }, attacker := { count := 0, outcome := "nothing", killer := false } }

/-- A one-player game mid-simulation. -/
def g0fix : Game := { name := "G", inProgress := true, ended := false, includedUsers := [pA], teams := [], dayNum := 0, dayState := 0, dayEvents := [], numAlive := 1 }

/-- A two-player game already on its simulating day. -/
def g2fix : Game := { name := "G", inProgress := true, ended := false, includedUsers := [pA, pB], teams := [], dayNum := 1, dayState := 1, dayEvents := [], numAlive := 2 }

/-- An environment whose only template is the kill. -/
def env0 : Env := { defaultBloodbathEvents := [evKill], defaultPlayerEvents := [], defaultArenaEvents := [] }

/-- An environment with the kill and the unfittable template. -/
def env2 : Env := { defaultBloodbathEvents := [evKill, evBig], defaultPlayerEvents := [], defaultArenaEvents := [] }

/-- The one-player guild game, defaults, about to start its first day. -/
def gg0 : GuildGame := { options := defaultOptions, customBloodbath := [], customPlayer := [], customArena := [], currentGame := g0fix, autoPlay := false }

/-- The two-player guild game, defaults, about to start its first day. -/
def gg2 : GuildGame := { options := defaultOptions, customBloodbath := [], customPlayer := [], customArena := [], currentGame := { g2fix with dayNum := 0, dayState := 0 }, autoPlay := false }

/-- Random stream for the hundred-rejection day: two zero draws pick and
apply the kill, then 101 draws of 512 keep picking the unfittable
template. -/
def c2rng : Rng := [0, 0] ++ List.replicate 101 512

/-- The one-player guild game with "allow no victors" off. -/
def ggNoVic : GuildGame := { gg0 with options := { defaultOptions with allowNoVictors := false } }

/-- The one-player guild game stopped mid-reveal (`day.state = 2`). -/
def ggState2 : GuildGame := { gg0 with currentGame := { g0fix with dayState := 2 } }

/-- The one-player guild game with no game in progress. -/
def ggIdle : GuildGame := { gg0 with currentGame := { g0fix with inProgress := false } }

/-! ## Invariants and basic lemmas -/

/-- The first player with the given id (what `findIndex` + indexing
yields in `effectUser`). -/
def firstById (users : List Player) (tid : Nat) : Option Player :=
  users[users.findIdx (fun u => u.id == tid)]?

/-- The global alive-counter invariant: `numAlive` equals the number of
living players (spec §3, asserted by the source in `printDay`). -/
def AliveInv (g : Game) : Prop :=
  g.numAlive = (countLiving g.includedUsers : Int)

/-- Only living players can carry the `bleeding` flag. -/
def BleedLiving (users : List Player) : Prop :=
  ∀ u ∈ users, u.bleeding = true → u.living = true

/-- Player ids are pairwise distinct (Discord ids). -/
def UsersNodup (users : List Player) : Prop :=
  (users.map Player.id).Nodup

/-- The two user-list invariants every phase preserves. -/
def GoodGame (g : Game) : Prop :=
  AliveInv g ∧ BleedLiving g.includedUsers ∧ UsersNodup g.includedUsers

/-- The loop invariant tying the user pool to the user list: pool ids
are distinct, every pool entry is a living snapshot, and looking its id
up in the user list yields exactly that snapshot. -/
def PoolOk (users pool : List Player) : Prop :=
  (pool.map Player.id).Nodup ∧
    ∀ p ∈ pool, p.living = true ∧ firstById users p.id = some p

theorem firstById_cons_pos (x : Player) (xs : List Player) (tid : Nat)
    (h : (x.id == tid) = true) : firstById (x :: xs) tid = some x := by
  simp [firstById, List.findIdx_cons, h]

theorem firstById_cons_neg (x : Player) (xs : List Player) (tid : Nat)
    (h : (x.id == tid) = false) : firstById (x :: xs) tid = firstById xs tid := by
  simp [firstById, List.findIdx_cons, h]

/-- With distinct ids, the first entry carrying a member's id is that
member itself. -/
theorem firstById_of_nodup (users : List Player) (p : Player)
    (hn : UsersNodup users) (hp : p ∈ users) : firstById users p.id = some p := by
  induction users with
  | nil => cases hp
  | cons x xs ih =>
    rcases List.mem_cons.mp hp with rfl | hmem
    · exact firstById_cons_pos _ _ _ (by simp)
    · have hxne : x.id ≠ p.id := by
        intro he
        have : p.id ∈ xs.map Player.id := List.mem_map_of_mem _ hmem
        have := (List.nodup_cons.mp hn).1
        simp [List.mem_map] at this
        exact absurd (he ▸ this p hmem) (fun hc => hc rfl)
      rw [firstById_cons_neg _ _ _ (by simpa using hxne)]
      exact ih (List.nodup_cons.mp hn).2 hmem

/-- Overwriting position `i` with a player of the same id does not
change the lookup of any other id. -/
theorem firstById_set_ne (users : List Player) (i : Nat) (v : Player) (tid : Nat)
    (hv : ∀ b, users[i]? = some b → v.id = b.id ∧ (b.id == tid) = false) :
    firstById (users.set i v) tid = firstById users tid := by
  induction users generalizing i with
  | nil => simp
  | cons x xs ih =>
    cases i with
    | zero =>
      obtain ⟨hid, hne⟩ := hv x (by simp)
      have hvne : (v.id == tid) = false := by rw [hid]; exact hne
      rw [List.set_cons_zero, firstById_cons_neg _ _ _ hvne, firstById_cons_neg _ _ _ hne]
    | succ n =>
      rw [List.set_cons_succ]
      rcases hb : (x.id == tid) with _ | _
      · rw [firstById_cons_neg _ _ _ hb, firstById_cons_neg _ _ _ hb]
        exact ih n (fun b hbmem => hv b (by simpa using hbmem))
      · rw [firstById_cons_pos _ _ _ hb, firstById_cons_pos _ _ _ hb]

/-- Overwriting position `i` with a player of the same id preserves the
id list. -/
theorem map_id_set (users : List Player) (i : Nat) (v : Player)
    (hv : ∀ b, users[i]? = some b → v.id = b.id) :
    (users.set i v).map Player.id = users.map Player.id := by
  induction users generalizing i with
  | nil => simp
  | cons x xs ih =>
    cases i with
    | zero => simp [hv x (by simp)]
    | succ n =>
      rw [List.set_cons_succ]
      simp only [List.map_cons]
      rw [ih n (fun b hb => hv b (by simpa using hb))]

/-- Counting after a `set` at a valid index. -/
theorem countLiving_set (users : List Player) (i : Nat) (v : Player)
    (h : i < users.length) :
    countLiving (users.set i v)
      = countLiving users - (if users[i].living then 1 else 0)
        + (if v.living then 1 else 0) := by
  simpa [countLiving] using List.countP_set (fun u => u.living) users i v h

/-- Bleeding-implies-living survives a `set` whose new entry satisfies
it. -/
theorem bleedLiving_set (users : List Player) (i : Nat) (v : Player)
    (hall : BleedLiving users) (hval : v.bleeding = true → v.living = true) :
    BleedLiving (users.set i v) := by
  intro u hu hb
  rcases List.mem_or_eq_of_mem_set hu with hmem | rfl
  · exact hall u hmem hb
  · exact hval hb

/-! ## Specifications of the effect helpers -/

theorem effectUser_spec (users : List Player) (tid : Nat) (kills : Int) (u : Player)
    (hu : firstById users tid = some u) :
    effectUser users tid kills =
      some (users.set (users.findIdx (fun v => v.id == tid))
          { u with bleeding := if u.state == "wounded" then true else u.bleeding,
                   kills := u.kills + kills },
        { u with bleeding := if u.state == "wounded" then true else u.bleeding,
                 kills := u.kills + kills },
        users.findIdx (fun v => v.id == tid)) := by
  obtain ⟨h, hget⟩ := List.getElem?_eq_some_iff.mp hu
  unfold effectUser
  simp only []
  rw [dif_pos h]
  simp only [List.get_eq_getElem, hget]

theorem killUser_spec (opts : Options) (users : List Player) (teams : List Team)
    (numAlive : Int) (tid : Nat) (kills : Int) (u : Player)
    (hu : firstById users tid = some u) :
    ∃ teams', killUser opts users teams numAlive tid kills =
      some (users.set (users.findIdx (fun v => v.id == tid))
          { u with living := false, bleeding := false, state := "dead",
                   rank := numAlive, kills := u.kills + kills },
        teams', numAlive - 1) := by
  unfold killUser
  rw [effectUser_spec users tid kills u hu]
  simp only [List.set_set]
  by_cases hts : opts.teamSize.gtZero = true
  · simp only [hts, if_true]
    by_cases hti : teams.findIdx (fun t => t.players.contains
        ({ u with living := false, bleeding := false, state := "dead",
                  rank := numAlive, kills := u.kills + kills } : Player).id) < teams.length
    · rw [dif_pos hti]
      exact ⟨_, rfl⟩
    · rw [dif_neg hti]
      exact ⟨teams, rfl⟩
  · simp only [Bool.not_eq_true] at hts
    simp only [hts, Bool.false_eq_true, if_false]
    exact ⟨teams, rfl⟩

theorem woundUser_spec (users : List Player) (tid : Nat) (kills : Int) (u : Player)
    (hu : firstById users tid = some u) :
    woundUser users tid kills =
      some (users.set (users.findIdx (fun v => v.id == tid))
        { u with bleeding := if u.state == "wounded" then true else u.bleeding,
                 state := "wounded", kills := u.kills + kills }) := by
  unfold woundUser
  rw [effectUser_spec users tid kills u hu]
  simp only [List.set_set]

theorem restoreUser_spec (users : List Player) (tid : Nat) (kills : Int) (u : Player)
    (hu : firstById users tid = some u) :
    restoreUser users tid kills =
      some (users.set (users.findIdx (fun v => v.id == tid))
        { u with bleeding := if u.state == "wounded" then true else u.bleeding,
                 state := "normal", kills := u.kills + kills }) := by
  unfold restoreUser
  rw [effectUser_spec users tid kills u hu]
  simp only [List.set_set]

/-- The shared consequences of overwriting the first entry with id
`t.id` (which equals the snapshot `t`) by a same-id player `v`. -/
theorem set_target_facts (users : List Player) (t v : Player)
    (hu : firstById users t.id = some t) (hid : v.id = t.id) :
    (users.set (users.findIdx (fun w => w.id == t.id)) v).map Player.id = users.map Player.id ∧
    (∀ tid', (t.id == tid') = false →
      firstById (users.set (users.findIdx (fun w => w.id == t.id)) v) tid'
        = firstById users tid') ∧
    (BleedLiving users → (v.bleeding = true → v.living = true) →
      BleedLiving (users.set (users.findIdx (fun w => w.id == t.id)) v)) ∧
    ((countLiving (users.set (users.findIdx (fun w => w.id == t.id)) v) : Int)
      = (countLiving users : Int)
        + (if v.living then 1 else 0) - (if t.living then 1 else 0)) := by
  obtain ⟨hlt, hget⟩ := List.getElem?_eq_some_iff.mp hu
  have hgetq : users[users.findIdx (fun w => w.id == t.id)]? = some t := hu
  refine ⟨?_, ?_, ?_, ?_⟩
  · exact map_id_set _ _ _ (fun b hb => by
      rw [hgetq] at hb; cases hb; exact hid)
  · intro tid' hne
    exact firstById_set_ne _ _ _ _ (fun b hb => by
      rw [hgetq] at hb; cases hb; exact ⟨hid, hne⟩)
  · intro hall hv
    exact bleedLiving_set _ _ _ hall hv
  · have hcnt := countLiving_set users (users.findIdx (fun w => w.id == t.id)) v hlt
    rw [hget] at hcnt
    have hle : (if t.living then 1 else 0) ≤ countLiving users := by
      by_cases ht : t.living
      · simp only [ht, if_true]
        have : 0 < countLiving users :=
          List.countP_pos_iff.mpr ⟨t, List.getElem?_mem hgetq, ht⟩
        omega
      · simp [ht]
    cases ht : t.living <;> cases hv : v.living <;>
      simp [ht, hv] at hcnt hle ⊢ <;> omega



/-- Master specification of `applySide`: applied to targets that are
living snapshots with distinct ids, it succeeds, preserves the id list,
decrements the living count and `numAlive` by the number of targets
exactly when the outcome is "dies", leaves lookups of untouched ids
unchanged, and preserves bleeding-implies-living. -/
theorem applySide_spec (opts : Options) (side : EventSide) (oc : Int) :
    ∀ (targets users : List Player) (teams : List Team) (numAlive : Int),
    (targets.map Player.id).Nodup →
    (∀ t ∈ targets, t.living = true ∧ firstById users t.id = some t) →
    ∃ users' teams' numAlive',
      applySide opts side oc targets (users, teams, numAlive) = some (users', teams', numAlive') ∧
      users'.map Player.id = users.map Player.id ∧
      (countLiving users' : Int)
        = (countLiving users : Int)
          - (if side.outcome == "dies" then (targets.length : Int) else 0) ∧
      numAlive' = numAlive - (if side.outcome == "dies" then (targets.length : Int) else 0) ∧
      (∀ tid, (∀ t ∈ targets, (t.id == tid) = false) →
        firstById users' tid = firstById users tid) ∧
      (BleedLiving users → BleedLiving users') := by
  intro targets
  induction targets with
  | nil =>
    intro users teams numAlive _ _
    refine ⟨users, teams, numAlive, rfl, rfl, ?_, ?_, fun _ _ => rfl, fun h => h⟩ <;> simp
  | cons t ts ih =>
    intro users teams numAlive hnd hmem
    obtain ⟨htl, htf⟩ := hmem t (List.mem_cons_self t ts)
    have hndts : (ts.map Player.id).Nodup := (List.nodup_cons.mp hnd).2
    have htnotin : t.id ∉ ts.map Player.id := (List.nodup_cons.mp hnd).1
    have hne_ts : ∀ t' ∈ ts, (t.id == t'.id) = false := by
      intro t' ht'
      have hne : t.id ≠ t'.id := by
        intro he
        exact htnotin (he ▸ List.mem_map_of_mem Player.id ht')
      exact beq_eq_false_iff_ne.mpr hne
    have hstep : ∃ (v : Player) (teams1 : List Team) (numAlive1 : Int),
        v.id = t.id ∧
        (v.bleeding = true → v.living = true) ∧
        v.living = (if side.outcome == "dies" then false else t.living) ∧
        numAlive1 = numAlive - (if side.outcome == "dies" then 1 else 0) ∧
        applySide opts side oc (t :: ts) (users, teams, numAlive)
          = applySide opts side oc ts
              (users.set (users.findIdx (fun w => w.id == t.id)) v, teams1, numAlive1) := by
      by_cases hdies : side.outcome == "dies"
      · obtain ⟨teams1, hkill⟩ := killUser_spec opts users teams numAlive t.id
          (if side.killer then oc else 0) t htf
        refine ⟨{ t with
            living := false
            bleeding := false
            state := "dead"
            rank := numAlive
            kills := t.kills + (if side.killer then oc else 0) },
          teams1, numAlive - 1, rfl, by simp, by simp [hdies], by simp [hdies], ?_⟩
        conv_lhs => rw [applySide]
        simp only [hdies, if_true, hkill]
      · by_cases hw : side.outcome == "wounded"
        · refine ⟨{ t with
              bleeding := if t.state == "wounded" then true else t.bleeding
              state := "wounded"
              kills := t.kills + (if side.killer then oc else 0) },
            teams, numAlive, rfl, fun _ => htl, by simp [hdies], by simp [hdies], ?_⟩
          conv_lhs => rw [applySide]
          simp only [hdies, hw, if_true, if_false, Bool.false_eq_true,
            woundUser_spec users t.id (if side.killer then oc else 0) t htf, Option.map_some]
          rfl
        · by_cases hth : side.outcome == "thrives"
          · refine ⟨{ t with
                bleeding := if t.state == "wounded" then true else t.bleeding
                state := "normal"
                kills := t.kills + (if side.killer then oc else 0) },
              teams, numAlive, rfl, fun _ => htl, by simp [hdies], by simp [hdies], ?_⟩
            conv_lhs => rw [applySide]
            simp only [hdies, hw, hth, if_true, if_false, Bool.false_eq_true,
              restoreUser_spec users t.id (if side.killer then oc else 0) t htf,
              Option.map_some]
            rfl
          · refine ⟨{ t with
                bleeding := if t.state == "wounded" then true else t.bleeding
                kills := t.kills + (if side.killer then oc else 0) },
              teams, numAlive, rfl, fun _ => htl, by simp [hdies], by simp [hdies], ?_⟩
            conv_lhs => rw [applySide]
            simp only [hdies, hw, hth, if_false, Bool.false_eq_true,
              effectUser_spec users t.id (if side.killer then oc else 0) t htf,
              Option.map_some]
            rfl
    obtain ⟨v, teams1, numAlive1, hvid, hvbl, hvliv, hna1, hstepeq⟩ := hstep
    obtain ⟨hmap, hfb, hbl, hcnt⟩ := set_target_facts users t v htf hvid
    have hmem1 : ∀ t' ∈ ts, t'.living = true ∧
        firstById (users.set (users.findIdx (fun w => w.id == t.id)) v) t'.id = some t' := by
      intro t' ht'
      exact ⟨(hmem t' (List.mem_cons_of_mem _ ht')).1,
        (hfb t'.id (hne_ts t' ht')).trans (hmem t' (List.mem_cons_of_mem _ ht')).2⟩
    obtain ⟨users2, teams2, numAlive2, happ, hmap2, hcnt2, hna2, hfb2, hbl2⟩ :=
      ih (users.set (users.findIdx (fun w => w.id == t.id)) v) teams1 numAlive1 hndts hmem1
    refine ⟨users2, teams2, numAlive2, hstepeq.trans happ, hmap2.trans hmap, ?_, ?_, ?_, ?_⟩
    · rw [hcnt2, hcnt, htl, hvliv]
      by_cases hdies : side.outcome == "dies"
      · simp only [hdies, if_true, if_false, List.length_cons, Bool.false_eq_true]
        push_cast
        ring
      · simp only [hdies, Bool.false_eq_true, if_false, htl, if_true]
        ring
    · rw [hna2, hna1]
      by_cases hdies : side.outcome == "dies"
      · simp only [hdies, if_true, List.length_cons]
        push_cast
        ring
      · simp only [hdies, Bool.false_eq_true, if_false]
        ring
    · intro tid htid
      rw [hfb2 tid (fun t' ht' => htid t' (List.mem_cons_of_mem _ ht')),
        hfb tid (htid t (List.mem_cons_self t ts))]
    · intro hall
      exact hbl2 (hbl hall hvbl)

/-- Specification of `applyEvent` for resolved counts that match the
effected list: it succeeds and performs exactly the victim/attacker
death bookkeeping on the user list and the alive counter. -/
theorem applyEvent_spec (opts : Options) (g : Game) (ev : GameEvent)
    (es : List Player) (nv na : Int) (rng : Rng)
    (hnv : 0 ≤ nv) (hna : 0 ≤ na)
    (hlen : es.length = nv.toNat + na.toNat)
    (hnd : (es.map Player.id).Nodup)
    (hmem : ∀ t ∈ es, t.living = true ∧ firstById g.includedUsers t.id = some t) :
    ∃ g' rng',
      applyEvent opts g ev es nv na rng = some (g', rng') ∧
      g'.includedUsers.map Player.id = g.includedUsers.map Player.id ∧
      (countLiving g'.includedUsers : Int)
        = (countLiving g.includedUsers : Int)
          - (if ev.victim.outcome == "dies" then nv else 0)
          - (if ev.attacker.outcome == "dies" then na else 0) ∧
      g'.numAlive = g.numAlive
          - (if ev.victim.outcome == "dies" then nv else 0)
          - (if ev.attacker.outcome == "dies" then na else 0) ∧
      (∀ tid, (∀ t ∈ es, (t.id == tid) = false) →
        firstById g'.includedUsers tid = firstById g.includedUsers tid) ∧
      (BleedLiving g.includedUsers → BleedLiving g'.includedUsers) := by
  have hsplit : es.take nv.toNat ++ es.drop nv.toNat = es := List.take_append_drop _ _
  have hvlen : (es.take nv.toNat).length = nv.toNat := by
    simp [List.length_take]
    omega
  have halen : (es.drop nv.toNat).length = na.toNat := by
    simp [List.length_drop]
    omega
  have hvnd : ((es.take nv.toNat).map Player.id).Nodup := by
    refine List.Sublist.nodup ?_ hnd
    exact List.Sublist.map _ (List.take_sublist _ _)
  have hand : ((es.drop nv.toNat).map Player.id).Nodup := by
    refine List.Sublist.nodup ?_ hnd
    exact List.Sublist.map _ (List.drop_sublist _ _)
  have hdisj : ∀ a ∈ es.drop nv.toNat, ∀ v ∈ es.take nv.toNat, (v.id == a.id) = false := by
    intro a ha v hv
    have : (es.map Player.id).Nodup := hnd
    rw [← hsplit, List.map_append, List.nodup_append] at this
    have hne : v.id ≠ a.id := by
      intro he
      exact this.2.2 (List.mem_map_of_mem Player.id hv) (he ▸ List.mem_map_of_mem Player.id ha)
    exact beq_eq_false_iff_ne.mpr hne
  obtain ⟨users1, teams1, numAlive1, happ1, hmap1, hcnt1, hna1, hfb1, hbl1⟩ :=
    applySide_spec opts ev.victim na (es.take nv.toNat) g.includedUsers g.teams g.numAlive
      hvnd (fun t ht => hmem t (List.mem_of_mem_take ht))
  obtain ⟨users2, teams2, numAlive2, happ2, hmap2, hcnt2, hna2, hfb2, hbl2⟩ :=
    applySide_spec opts ev.attacker nv (es.drop nv.toNat) users1 teams1 numAlive1
      hand (fun t ht => ⟨(hmem t (List.mem_of_mem_drop ht)).1,
        (hfb1 t.id (hdisj t ht)).trans (hmem t (List.mem_of_mem_drop ht)).2⟩)
  have hatake : (es.drop nv.toNat).take na.toNat = es.drop nv.toNat := by
    apply List.take_of_length_le
    omega
  refine ⟨{ g with
      includedUsers := users2
      teams := teams2
      numAlive := numAlive2
      dayEvents := g.dayEvents
        ++ [(makeSingleEvent ev.message es nv na users2 opts.mentionAll rng).1] },
    (makeSingleEvent ev.message es nv na users2 opts.mentionAll rng).2,
    ?_, ?_, ?_, ?_, ?_, ?_⟩
  · unfold applyEvent
    simp only [hatake, happ1, happ2]
  · exact hmap2.trans hmap1
  · show (countLiving users2 : Int) = _
    rw [hcnt2, hcnt1, hvlen, halen, Int.toNat_of_nonneg hnv, Int.toNat_of_nonneg hna]
  · show numAlive2 = _
    rw [hna2, hna1, hvlen, halen, Int.toNat_of_nonneg hnv, Int.toNat_of_nonneg hna]
  · intro tid htid
    refine (hfb2 tid ?_).trans (hfb1 tid ?_)
    · exact fun t ht => htid t (List.mem_of_mem_drop ht)
    · exact fun t ht => htid t (List.mem_of_mem_take ht)
  · exact fun h => hbl2 (hbl1 h)

/-! ## Picking lemmas -/

theorem randFloorMul_lt (rng : Rng) (n : Nat) (hn : 0 < n) : (randFloorMul rng n).1 < n := by
  cases rng with
  | nil => simpa [randFloorMul]
  | cons k r =>
    simp only [randFloorMul]
    have h1 : k % 1024 < 1024 := Nat.mod_lt _ (by norm_num)
    have : (k % 1024) * n < n * 1024 := by
      calc (k % 1024) * n < 1024 * n := by
            exact (Nat.mul_lt_mul_right hn).mpr h1
        _ = n * 1024 := Nat.mul_comm _ _
    exact Nat.lt_of_mul_lt_mul_right (by
      calc (k % 1024) * n / 1024 * 1024 ≤ (k % 1024) * n := Nat.div_mul_le_self _ _
        _ < n * 1024 := this)

theorem spliceOne_perm (l : List Player) (i : Int) (u : Player) (l' : List Player)
    (h : spliceOne l i = (some u, l')) : (u :: l').Perm l ∧ l'.length + 1 = l.length := by
  unfold spliceOne at h
  set j : Nat := if i < 0 then ((l.length : Int) + i).toNat else i.toNat with hj
  by_cases hlt : j < l.length
  · rw [dif_pos hlt] at h
    cases h
    constructor
    · calc (l.get ⟨j, hlt⟩ :: (l.take j ++ l.drop (j + 1))).Perm
            (l.take j ++ l.get ⟨j, hlt⟩ :: l.drop (j + 1)) := List.perm_middle.symm
        _ = l := by
            rw [List.get_eq_getElem, List.getElem_cons_drop l j hlt, List.take_append_drop]
    · simp only [List.length_append, List.length_take, List.length_drop]
      omega
  · rw [dif_neg hlt] at h
    cases h

theorem spliceOne_isSome (l : List Player) (i : Int)
    (hok : (0 ≤ i ∧ i < (l.length : Int)) ∨ (i = -1 ∧ 0 < l.length)) :
    ∃ u l', spliceOne l i = (some u, l') := by
  unfold spliceOne
  set j : Nat := if i < 0 then ((l.length : Int) + i).toNat else i.toNat with hj
  have hlt : j < l.length := by
    rcases hok with ⟨h0, h1⟩ | ⟨hm1, hpos⟩
    · rw [hj, if_neg (by omega)]
      omega
    · rw [hj, hm1, if_pos (by norm_num)]
      omega
  rw [dif_pos hlt]
  exact ⟨_, _, rfl⟩

theorem findMatching_cases (teams : List Team) (vt : Int) (m : Bool) (pool : List Player) :
    (0 ≤ findMatching teams vt m pool ∧ findMatching teams vt m pool < (pool.length : Int))
      ∨ findMatching teams vt m pool = -1 := by
  unfold findMatching
  by_cases h : pool.findIdx (fun p => (teamIdxOf teams p.id == vt) == m) < pool.length
  · left
    rw [if_pos h]
    constructor <;> omega
  · right
    rw [if_neg h]

theorem pickTeamsGo_spec (teams : List Team) (vt : Int) (isA : Bool) (nv : Int) :
    ∀ (k i : Nat) (pool : List Player), k ≤ pool.length →
    ∃ es pool', pickTeamsGo teams vt isA nv i k pool = some (es, pool') ∧
      (es ++ pool').Perm pool ∧ es.length = k := by
  intro k
  induction k with
  | zero => intro i pool _; exact ⟨[], pool, rfl, by simp, rfl⟩
  | succ n ih =>
    intro i pool hk
    have hpos : 0 < pool.length := by omega
    obtain ⟨u, pool1, hsp⟩ := spliceOne_isSome pool
      (findMatching teams vt (((i : Int) < nv && !isA) || (!((i : Int) < nv) && isA)) pool)
      (by
        rcases findMatching_cases teams vt (((i : Int) < nv && !isA) || (!((i : Int) < nv) && isA)) pool with h | h
        · exact Or.inl h
        · exact Or.inr ⟨h, hpos⟩)
    obtain ⟨hperm, hlen⟩ := spliceOne_perm pool _ u pool1 hsp
    obtain ⟨es, pool2, hrec, hperm2, hlen2⟩ := ih (i + 1) pool1 (by omega)
    refine ⟨u :: es, pool2, ?_, ?_, by simp [hlen2]⟩
    · unfold pickTeamsGo
      simp only [hsp, hrec]
    · exact (hperm2.cons u).trans hperm

theorem pickRandomGo_spec :
    ∀ (k : Nat) (pool : List Player) (rng : Rng), k ≤ pool.length →
    ∃ es pool' rng', pickRandomGo k pool rng = some (es, pool', rng') ∧
      (es ++ pool').Perm pool ∧ es.length = k := by
  intro k
  induction k with
  | zero => intro pool rng _; exact ⟨[], pool, rng, rfl, by simp, rfl⟩
  | succ n ih =>
    intro pool rng hk
    have hpos : 0 < pool.length := by omega
    have hidx := randFloorMul_lt rng pool.length hpos
    obtain ⟨u, pool1, hsp⟩ := spliceOne_isSome pool ((randFloorMul rng pool.length).1 : Int)
      (Or.inl ⟨by positivity, by exact_mod_cast hidx⟩)
    obtain ⟨hperm, hlen⟩ := spliceOne_perm pool _ u pool1 hsp
    obtain ⟨es, pool2, rng2, hrec, hperm2, hlen2⟩ := ih pool1 (randFloorMul rng pool.length).2
      (by omega)
    refine ⟨u :: es, pool2, rng2, ?_, ?_, by simp [hlen2]⟩
    · unfold pickRandomGo
      simp only [hsp, hrec]
    · exact (hperm2.cons u).trans hperm

/-- Under the resolved-count bounds the participant picking always
succeeds and partitions the pool. -/
theorem pickEffected_spec (opts : Options) (teams : List Team) (pool : List Player)
    (nv na : Int) (rng : Rng)
    (hnv : 0 ≤ nv) (hna : 0 ≤ na) (hsum : nv + na ≤ (pool.length : Int)) :
    ∃ es pool' rng', pickEffected opts teams pool nv na rng = some (es, pool', rng') ∧
      (es ++ pool').Perm pool ∧ es.length = (na + nv).toNat := by
  have hk : (na + nv).toNat ≤ pool.length := by omega
  unfold pickEffected
  by_cases hcol : opts.teammatesCollaborate && opts.teamSize.gtZero
  · rw [if_pos hcol]
    rcases hcv : chooseValidTeamGo pool.length na nv 0 teams with ⟨vt, isA⟩
    obtain ⟨es, pool', hrec, hperm, hlen⟩ :=
      pickTeamsGo_spec teams vt isA nv (na + nv).toNat 0 pool hk
    refine ⟨es, pool', rng, ?_, hperm, hlen⟩
    simp only [hcv, hrec]
  · rw [if_neg hcol]
    obtain ⟨es, pool', rng', hrec, hperm, hlen⟩ := pickRandomGo_spec (na + nv).toNat pool rng hk
    exact ⟨es, pool', rng', hrec, hperm, hlen⟩

/-! ## Selection lemmas -/

theorem weightedRandOf_pos (r : ℚ) : 1 ≤ weightedRandOf r := by
  unfold weightedRandOf
  split
  · exact le_refl 1
  all_goals split
  all_goals first
  | omega
  | (split
     all_goals first
     | omega
     | (split
        all_goals first
        | omega
        | (split <;> omega)))

/-- Whenever the multi-count re-draw loop yields resolved counts, they
fit the pool and respect the encoded minima (an untouched side keeps
its original count). -/
theorem resolveMulti_spec (mA mV : Bool) (aMin vMin : Int) (poolLen : Nat) :
    ∀ (fuel : Nat) (na nv : Int) (rng : Rng) (na' nv' : Int) (rng' : Rng),
    resolveMulti mA mV aMin vMin poolLen na nv rng fuel = (some (na', nv'), rng') →
    na' + nv' ≤ (poolLen : Int) ∧
    (mA = true → aMin ≤ na') ∧ (mA = false → na' = na) ∧
    (mV = true → vMin ≤ nv') ∧ (mV = false → nv' = nv) := by
  intro fuel
  induction fuel with
  | zero => intro na nv rng na' nv' rng' h; cases h
  | succ f ih =>
    intro na nv rng na' nv' rng' h
    set na1 : Int := if mA then ((weightedRand rng).1 : Int) + (aMin - 1) else na with hna1
    set rngA : Rng := if mA then (weightedRand rng).2 else rng with hrngA
    set nv1 : Int := if mV then ((weightedRand rngA).1 : Int) + (vMin - 1) else nv with hnv1
    set rngV : Rng := if mV then (weightedRand rngA).2 else rngA with hrngV
    have hstep : resolveMulti mA mV aMin vMin poolLen na nv rng (f + 1)
        = if na1 + nv1 > (poolLen : Int) then
            resolveMulti mA mV aMin vMin poolLen na1 nv1 rngV f
          else (some (na1, nv1), rngV) := by
      rw [resolveMulti]
      rcases mA <;> rcases mV <;> simp [hna1, hrngA, hnv1, hrngV]
    rw [hstep] at h
    have hA : mA = true → aMin ≤ na1 := by
      intro hm
      rw [hna1, if_pos hm]
      have := weightedRandOf_pos (randQ rng).1
      have : 1 ≤ ((weightedRand rng).1 : Int) := by
        simp only [weightedRand]
        exact_mod_cast weightedRandOf_pos _
      omega
    have hA' : mA = false → na1 = na := by
      intro hm
      rw [hna1, hm]
      simp
    have hV : mV = true → vMin ≤ nv1 := by
      intro hm
      rw [hnv1, if_pos hm]
      have : 1 ≤ ((weightedRand rngA).1 : Int) := by
        simp only [weightedRand]
        exact_mod_cast weightedRandOf_pos _
      omega
    have hV' : mV = false → nv1 = nv := by
      intro hm
      rw [hnv1, hm]
      simp
    by_cases hgt : na1 + nv1 > (poolLen : Int)
    · rw [if_pos hgt] at h
      obtain ⟨h1, h2, h3, h4, h5⟩ := ih na1 nv1 rngV na' nv' rng' h
      refine ⟨h1, h2, ?_, h4, ?_⟩
      · intro hm
        rw [h3 hm, hA' hm]
      · intro hm
        rw [h5 hm, hV' hm]
    · rw [if_neg hgt] at h
      obtain ⟨⟨hna', hnv'⟩, hrng'⟩ : (na1 = na' ∧ nv1 = nv') ∧ rngV = rng' := by
        simpa using h
      subst hna' hnv'
      exact ⟨by omega, hA, hA', hV, hV'⟩

/-- Accepted checks come with false guards: bounds transfer verbatim. -/
theorem selectChecks_accept (opts : Options) (g : Game) (pool : List Player)
    (eventTry : GameEvent) (nA nV : Int) (rng2 : Rng)
    (teams' : List Team) (ev : GameEvent) (nv na : Int) (rng' : Rng)
    (h : selectChecks opts g pool eventTry nA nV rng2
      = (teams', SelKind.accept ev nv na rng')) :
    ev = eventTry ∧ nv = nV ∧ na = nA ∧ rng' = rng2 ∧
    (opts.allowNoVictors = false →
      1 ≤ g.numAlive - (if ev.victim.outcome == "dies" then nv else 0)
        - (if ev.attacker.outcome == "dies" then na else 0)) := by
  unfold selectChecks at h
  split at h
  rename_i teams1 largestSize numTeams hteamlet
  by_cases hc1 : (opts.teammatesCollaborate && opts.teamSize.gtZero
      && numTeams < 2
      && (eventTry.attacker.outcome == "dies" || eventTry.victim.outcome == "dies")) = true
  · rw [if_pos hc1] at h
    exact absurd h (by simp)
  rw [if_neg hc1] at h
  by_cases hc2 : (opts.teammatesCollaborate && opts.teamSize.gtZero
      && !((nA ≤ (largestSize : Int)
              && nV ≤ (pool.length : Int) - (largestSize : Int))
           || (nV ≤ (largestSize : Int)
              && nA ≤ (pool.length : Int) - (largestSize : Int)))) = true
  · rw [if_pos hc2] at h
    exact absurd h (by simp)
  rw [if_neg hc2] at h
  by_cases hc3 : (!opts.allowNoVictors
      && g.numAlive
          - (if eventTry.victim.outcome == "dies" then nV else 0)
          - (if eventTry.attacker.outcome == "dies" then nA else 0) < 1) = true
  · rw [if_pos hc3] at h
    exact absurd h (by simp)
  rw [if_neg hc3] at h
  obtain ⟨hteams, hev, hnv, hna, hrng⟩ :
      teams1 = teams' ∧ eventTry = ev ∧ nV = nv ∧ nA = na ∧ rng2 = rng' := by
    simpa using h
  subst hev hnv hna hrng
  refine ⟨rfl, rfl, rfl, rfl, ?_⟩
  intro hno
  simp only [hno, Bool.not_false, Bool.true_and, decide_eq_true_eq] at hc3
  omega

/-- Counts delivered to the checks are nonnegative and fit the pool
(the minimum-participants guard for exact counts, the re-draw exit
condition for "at least N" counts). -/
theorem selectResolve_accept (opts : Options) (g : Game) (pool : List Player)
    (eventTry : GameEvent) (rng1 : Rng) (rf : Nat)
    (teams' : List Team) (ev : GameEvent) (nv na : Int) (rng' : Rng)
    (hmin : ¬ ((if eventTry.victim.count < 0 then -eventTry.victim.count
          else eventTry.victim.count)
        + (if eventTry.attacker.count < 0 then -eventTry.attacker.count
          else eventTry.attacker.count) : Int) > (pool.length : Int))
    (h : selectResolve opts g pool eventTry rng1 rf
      = (teams', SelKind.accept ev nv na rng')) :
    0 ≤ nv ∧ 0 ≤ na ∧ nv + na ≤ (pool.length : Int) ∧
    (opts.allowNoVictors = false →
      1 ≤ g.numAlive - (if ev.victim.outcome == "dies" then nv else 0)
        - (if ev.attacker.outcome == "dies" then na else 0)) := by
  unfold selectResolve at h
  split at h
  · exact absurd h (by simp)
  rename_i nA nV rng2 hres
  obtain ⟨_, hnv, hna, _, hnovic⟩ :=
    selectChecks_accept opts g pool eventTry nA nV rng2 teams' ev nv na rng' h
  subst hnv hna
  refine ⟨?_, ?_, ?_, hnovic⟩ <;>
  · by_cases hm : (eventTry.attacker.count < 0 ∨ eventTry.victim.count < 0)
    · rw [if_pos (by simpa using hm)] at hres
      obtain ⟨h1, h2, h3, h4, h5⟩ :=
        resolveMulti_spec _ _ _ _ pool.length rf _ _ rng1 na nv rng2 hres
      by_cases hac : eventTry.attacker.count < 0 <;>
        by_cases hvc : eventTry.victim.count < 0
      · have := h2 (by simpa using hac)
        have := h4 (by simpa using hvc)
        omega
      · have := h2 (by simpa using hac)
        have := h5 (by simpa using hvc)
        omega
      · have := h3 (by simpa using hac)
        have := h4 (by simpa using hvc)
        omega
      · exact absurd hm (by simp [hac, hvc])
    · push_neg at hm
      rw [if_neg (by simpa using hm)] at hres
      obtain ⟨⟨hA, hV⟩, _⟩ : (eventTry.attacker.count = na ∧ eventTry.victim.count = nv)
          ∧ rng1 = rng2 := by simpa using hres
      obtain ⟨hm1, hm2⟩ := hm
      rw [if_neg (by omega), if_neg (by omega)] at hmin
      omega

/-- C5 core: an accepted draw has nonnegative resolved counts fitting
the living pool, the retry counter within its bound, and (when the
no-victors policy is off) at least one survivor after its deaths. -/
theorem selectStep_accept (opts : Options) (g : Game) (pool : List Player)
    (eventPool : List GameEvent) (cnt : Nat) (rng : Rng) (rf : Nat)
    (teams' : List Team) (ev : GameEvent) (nv na : Int) (rng' : Rng)
    (h : selectStep opts g pool eventPool cnt rng rf = (teams', SelKind.accept ev nv na rng')) :
    0 ≤ nv ∧ 0 ≤ na ∧ nv + na ≤ (pool.length : Int) ∧ cnt ≤ 100 ∧
    (opts.allowNoVictors = false →
      1 ≤ g.numAlive - (if ev.victim.outcome == "dies" then nv else 0)
        - (if ev.attacker.outcome == "dies" then na else 0)) := by
  unfold selectStep at h
  split at h
  rename_i eventIndex rng1 hfm
  split at h
  · exact absurd h (by simp)
  rename_i eventTry hget
  split at h
  · exact absurd h (by simp)
  rename_i hcnt
  by_cases hmin : ((if eventTry.victim.count < 0 then -eventTry.victim.count
        else eventTry.victim.count)
      + (if eventTry.attacker.count < 0 then -eventTry.attacker.count
        else eventTry.attacker.count) : Int) > (pool.length : Int)
  · rw [if_pos hmin] at h
    exact absurd h (by simp)
  · rw [if_neg hmin] at h
    obtain ⟨h1, h2, h3, h5⟩ :=
      selectResolve_accept opts g pool eventTry rng1 rf teams' ev nv na rng' hmin h
    exact ⟨h1, h2, h3, by omega, h5⟩

/-! ## The event-loop invariant -/

/-- The game carried by a loop result. -/
def LoopRes.game : LoopRes → Game
  | .finished g _ => g
  | .noValid g _ => g
  | .crashed g _ => g
  | .outOfFuel g _ => g

/-- Master invariant of the day event loop: whatever the outcome, the
alive counter stays equal to the living count, bleeding stays confined
to living players, and - when "allow no victors" is off - at least one
player stays alive. -/
theorem eventLoop_master (opts : Options) (eventPool : List GameEvent) :
    ∀ (fuel : Nat) (g : Game) (pool : List Player) (cnt : Nat) (rng : Rng),
    AliveInv g → BleedLiving g.includedUsers → PoolOk g.includedUsers pool →
    UsersNodup g.includedUsers →
    AliveInv (eventLoop opts eventPool fuel g pool cnt rng).game ∧
    BleedLiving (eventLoop opts eventPool fuel g pool cnt rng).game.includedUsers ∧
    UsersNodup (eventLoop opts eventPool fuel g pool cnt rng).game.includedUsers ∧
    (opts.allowNoVictors = false → 1 ≤ g.numAlive →
      1 ≤ (eventLoop opts eventPool fuel g pool cnt rng).game.numAlive) := by
  intro fuel
  induction fuel with
  | zero =>
    intro g pool cnt rng hinv hbl _ hnd
    exact ⟨hinv, hbl, hnd, fun _ h => h⟩
  | succ f ih =>
    intro g pool cnt rng hinv hbl hpool hnd
    by_cases hemp : pool.length == 0
    · have : eventLoop opts eventPool (f + 1) g pool cnt rng = .finished g rng := by
        rw [eventLoop, if_pos hemp]
      rw [this]
      exact ⟨hinv, hbl, hnd, fun _ h => h⟩
    rcases hsel : selectStep opts g pool eventPool (cnt + 1) rng (rng.length + 1)
      with ⟨teams', kind⟩
    have hinv1 : AliveInv { g with teams := teams' } := hinv
    have hbl1 : BleedLiving ({ g with teams := teams' } : Game).includedUsers := hbl
    cases kind with
    | reject rng1 =>
      have hstep : eventLoop opts eventPool (f + 1) g pool cnt rng
          = eventLoop opts eventPool f { g with teams := teams' } pool (cnt + 1) rng1 := by
        conv_lhs => rw [eventLoop]
        rw [if_neg hemp, hsel]
      rw [hstep]
      exact ih { g with teams := teams' } pool (cnt + 1) rng1 hinv1 hbl1 hpool hnd
    | abort rng1 =>
      have hstep : eventLoop opts eventPool (f + 1) g pool cnt rng
          = .noValid { g with teams := teams', dayState := 0 } rng1 := by
        conv_lhs => rw [eventLoop]
        rw [if_neg hemp, hsel]
      rw [hstep]
      exact ⟨hinv, hbl, hnd, fun _ h => h⟩
    | stuck rng1 =>
      have hstep : eventLoop opts eventPool (f + 1) g pool cnt rng
          = .outOfFuel { g with teams := teams' } rng1 := by
        conv_lhs => rw [eventLoop]
        rw [if_neg hemp, hsel]
      rw [hstep]
      exact ⟨hinv, hbl, hnd, fun _ h => h⟩
    | accept ev nv na rng1 =>
      obtain ⟨hnv, hna, hsum, _, hnovic⟩ :=
        selectStep_accept opts g pool eventPool (cnt + 1) rng (rng.length + 1)
          teams' ev nv na rng1 hsel
      obtain ⟨es, pool1, rng2, hpick, hperm, hlen⟩ :=
        pickEffected_spec opts teams' pool nv na rng1 hnv hna hsum
      have hperm_ids : ((es ++ pool1).map Player.id).Perm (pool.map Player.id) :=
        hperm.map _
      have hnodup_all : ((es ++ pool1).map Player.id).Nodup :=
        (hperm_ids.nodup_iff).mpr hpool.1
      have hnodup_es : (es.map Player.id).Nodup := by
        rw [List.map_append] at hnodup_all
        exact hnodup_all.of_append_left
      have hmem_es : ∀ t ∈ es, t.living = true ∧
          firstById ({ g with teams := teams' } : Game).includedUsers t.id = some t := by
        intro t ht
        exact hpool.2 t (hperm.mem_iff.mp (List.mem_append_left _ ht))
      obtain ⟨g2, rng3, happly, hmap2, hcnt2, hna2, hfb2, hbl2⟩ :=
        applyEvent_spec opts { g with teams := teams' } ev es nv na rng2 hnv hna
          (by omega) hnodup_es hmem_es
      have hstep : eventLoop opts eventPool (f + 1) g pool cnt rng
          = eventLoop opts eventPool f g2 pool1 0 rng3 := by
        conv_lhs => rw [eventLoop]
        rw [if_neg hemp, hsel]
        simp only [happly, hpick]
      have hinv2 : AliveInv g2 := by
        unfold AliveInv at hinv ⊢
        dsimp only at hcnt2 hna2
        omega
      have hbl2' : BleedLiving g2.includedUsers := hbl2 hbl1
      have hpool2 : PoolOk g2.includedUsers pool1 := by
        constructor
        · rw [List.map_append] at hnodup_all
          exact (List.nodup_append.mp hnodup_all).2.1
        · intro p hp
          have hpmem : p ∈ pool := hperm.mem_iff.mp (List.mem_append_right _ hp)
          have hdisj : ∀ t ∈ es, (t.id == p.id) = false := by
            intro t ht
            rw [List.map_append] at hnodup_all
            have := (List.nodup_append.mp hnodup_all).2.2
              (List.mem_map_of_mem Player.id ht)
            refine beq_eq_false_iff_ne.mpr ?_
            intro he
            exact this (he ▸ List.mem_map_of_mem Player.id hp)
          exact ⟨(hpool.2 p hpmem).1,
            (hfb2 p.id hdisj).trans (hpool.2 p hpmem).2⟩
      have hnd2 : UsersNodup g2.includedUsers := by
        unfold UsersNodup at hnd ⊢
        rw [hmap2]
        exact hnd
      rw [hstep]
      obtain ⟨ha, hb, hn, hc⟩ := ih g2 pool1 0 rng3 hinv2 hbl2' hpool2 hnd2
      refine ⟨ha, hb, hn, fun hno h1 => hc hno ?_⟩
      have := hnovic hno
      rw [hna2]
      dsimp only
      omega

/-! ## Phase lemmas -/

/-- The game carried by a phase result. -/
def PhaseRes.game : PhaseRes → Game
  | .ok g _ => g
  | .crash g _ => g

theorem countLiving_map_pres (f : Player → Player) (l : List Player)
    (hf : ∀ u, (f u).living = u.living) : countLiving (l.map f) = countLiving l := by
  unfold countLiving
  rw [List.countP_map]
  exact List.countP_congr (fun x _ => by simp [Function.comp, hf])

theorem map_id_map_pres (f : Player → Player) (l : List Player)
    (hf : ∀ u, (f u).id = u.id) : (l.map f).map Player.id = l.map Player.id := by
  rw [List.map_map]
  exact List.map_congr_left (fun x _ => hf x)

theorem bleedLiving_map_pres (f : Player → Player) (l : List Player)
    (hbf : ∀ u, (f u).bleeding = u.bleeding ∧ (f u).living = u.living)
    (h : BleedLiving l) : BleedLiving (l.map f) := by
  intro u hu hb
  obtain ⟨x, hx, rfl⟩ := List.mem_map.mp hu
  rw [(hbf x).2]
  exact h x hx ((hbf x).1 ▸ hb)

/-- The resurrection pass preserves the three user invariants and never
lowers the alive counter, whether it completes or crashes on the
unguarded team lookup. -/
theorem resurrectPhase_master (opts : Options) (g : Game) (rng : Rng)
    (hinv : AliveInv g) (hbl : BleedLiving g.includedUsers)
    (hnd : UsersNodup g.includedUsers) :
    AliveInv (resurrectPhase opts g rng).game ∧
    BleedLiving (resurrectPhase opts g rng).game.includedUsers ∧
    UsersNodup (resurrectPhase opts g rng).game.includedUsers ∧
    g.numAlive ≤ (resurrectPhase opts g rng).game.numAlive := by
  unfold resurrectPhase
  by_cases hres : opts.resurrection = true
  case neg =>
    rw [if_neg hres]
    exact ⟨hinv, hbl, hnd, le_refl _⟩
  rw [if_pos hres]
  rcases hq : randQ rng with ⟨q, rng1⟩
  try dsimp only
  by_cases hdraw : JsNum.sampleLt q opts.probabilityOfResurrect = true
  case neg =>
    rw [if_neg hdraw]
    exact ⟨hinv, hbl, hnd, le_refl _⟩
  rw [if_pos hdraw]
  try dsimp only
  by_cases hdp : (g.includedUsers.enum.filter (fun p => !p.2.living)).length > 0
  case neg =>
    rw [if_neg hdp]
    exact ⟨hinv, hbl, hnd, le_refl _⟩
  rw [if_pos hdp]
  set dpl := g.includedUsers.enum.filter (fun p => !p.2.living) with hdpl
  set j := (randFloorMul rng1 dpl.length).1 with hjdef
  rcases hget : dpl.get? j with _ | ⟨ri, res0⟩
  · exact ⟨hinv, hbl, hnd, le_refl _⟩
  try dsimp only
  have hmem0 : (ri, res0) ∈ dpl := by
    rw [List.get?_eq_getElem?] at hget
    exact List.getElem?_mem hget
  rw [hdpl] at hmem0
  have hdead : res0.living = false := by
    have := (List.mem_filter.mp hmem0).2
    simpa using this
  obtain ⟨hri, hval⟩ := List.mem_enum (List.mem_filter.mp hmem0).1
  have hvalq : g.includedUsers[ri]? = some res0 :=
    List.getElem?_eq_some_iff.mpr ⟨hri, hval.symm⟩
  -- facts about users1 (revival in place)
  have hu1get : (g.includedUsers.set ri { res0 with living := true, state := "zombie" })[ri]?
      = some { res0 with living := true, state := "zombie" } :=
    List.getElem?_set_self hri
  have hcnt1 : countLiving (g.includedUsers.set ri { res0 with living := true, state := "zombie" })
      = countLiving g.includedUsers + 1 := by
    have hc := countLiving_set g.includedUsers ri
      { res0 with living := true, state := "zombie" } hri
    rw [← hval] at hc
    simpa [hdead] using hc
  have hmap1 : ((g.includedUsers.set ri
        { res0 with living := true, state := "zombie" }).map Player.id)
      = g.includedUsers.map Player.id := by
    refine map_id_set _ _ _ (fun b hb => ?_)
    rw [hvalq] at hb
    cases hb
    rfl
  have hbl1 : BleedLiving (g.includedUsers.set ri { res0 with living := true, state := "zombie" }) := by
    refine bleedLiving_set _ _ _ hbl (fun _ => rfl)
  -- facts about users2 (rank adjustment map)
  have hfliv : ∀ u : Player,
      ((if (!u.living && u.rank < res0.rank) then { u with rank := u.rank + 1 } else u) : Player).living
        = u.living := by
    intro u
    by_cases hc : (!u.living && u.rank < res0.rank) = true
    · rw [if_pos hc]
    · rw [if_neg hc]
  have hfbl : ∀ u : Player,
      ((if (!u.living && u.rank < res0.rank) then { u with rank := u.rank + 1 } else u) : Player).bleeding
        = u.bleeding := by
    intro u
    by_cases hc : (!u.living && u.rank < res0.rank) = true
    · rw [if_pos hc]
    · rw [if_neg hc]
  have hfid : ∀ u : Player,
      ((if (!u.living && u.rank < res0.rank) then { u with rank := u.rank + 1 } else u) : Player).id
        = u.id := by
    intro u
    by_cases hc : (!u.living && u.rank < res0.rank) = true
    · rw [if_pos hc]
    · rw [if_neg hc]
  set users2 : List Player :=
    (g.includedUsers.set ri { res0 with living := true, state := "zombie" }).map
      (fun u => if (!u.living && u.rank < res0.rank) then { u with rank := u.rank + 1 } else u)
    with husers2
  have hcnt2 : countLiving users2 = countLiving g.includedUsers + 1 := by
    rw [husers2, countLiving_map_pres _ _ hfliv, hcnt1]
  have hmap2 : users2.map Player.id = g.includedUsers.map Player.id := by
    rw [husers2, map_id_map_pres _ _ hfid, hmap1]
  have hbl2 : BleedLiving users2 := by
    rw [husers2]
    exact bleedLiving_map_pres _ _ (fun u => ⟨hfbl u, hfliv u⟩) hbl1
  have hu2get : users2[ri]? = some { res0 with living := true, state := "zombie" } := by
    rw [husers2, List.getElem?_map, hu1get]
    simp
  have hu2lt : ri < users2.length := by
    rw [husers2]
    simpa using hri
  -- facts about users3 (rank set to 1)
  set users3 : List Player := users2.set ri { res0 with living := true, state := "zombie", rank := 1 }
    with husers3
  have hcnt3 : countLiving users3 = countLiving g.includedUsers + 1 := by
    rw [husers3]
    have hc := countLiving_set users2 ri { res0 with living := true, state := "zombie", rank := 1 }
      (by simpa using hu2lt)
    obtain ⟨hlt2, hg2⟩ := List.getElem?_eq_some_iff.mp hu2get
    rw [hg2] at hc
    simpa [hcnt2] using hc
  have hmap3 : users3.map Player.id = g.includedUsers.map Player.id := by
    rw [husers3]
    rw [map_id_set _ _ _ (fun b hb => by rw [hu2get] at hb; cases hb; rfl)]
    exact hmap2
  have hbl3 : BleedLiving users3 := by
    rw [husers3]
    exact bleedLiving_set _ _ _ hbl2 (fun _ => rfl)
  -- common conclusions
  by_cases hti : g.teams.findIdx (fun t => t.players.contains
      ({ res0 with living := true, state := "zombie", rank := 1 } : Player).id) < g.teams.length
  · rw [dif_pos hti]
    refine ⟨?_, hbl3, ?_, by show g.numAlive ≤ g.numAlive + 1; omega⟩
    · show g.numAlive + 1 = (countLiving users3 : Int)
      rw [hcnt3]
      unfold AliveInv at hinv
      push_cast
      omega
    · show (users3.map Player.id).Nodup
      rw [hmap3]
      exact hnd
  · rw [dif_neg hti]
    refine ⟨?_, hbl3, ?_, by show g.numAlive ≤ g.numAlive + 1; omega⟩
    · show g.numAlive + 1 = (countLiving users3 : Int)
      rw [hcnt3]
      unfold AliveInv at hinv
      push_cast
      omega
    · show (users3.map Player.id).Nodup
      rw [hmap3]
      exact hnd

theorem countLiving_append (a b : List Player) :
    countLiving (a ++ b) = countLiving a + countLiving b := by
  unfold countLiving
  exact List.countP_append _ _ _

theorem countLiving_cons (u : Player) (l : List Player) :
    countLiving (u :: l) = countLiving l + (if u.living then 1 else 0) := by
  unfold countLiving
  simp [List.countP_cons]

/-- `choosePool` only appends to the day's event list: the users, the
alive counter, the teams and the day counters are untouched. -/
theorem choosePool_pres (env : Env) (gg : GuildGame) (g : Game) (rng : Rng) :
    (choosePool env gg g rng).2.1.includedUsers = g.includedUsers ∧
    (choosePool env gg g rng).2.1.numAlive = g.numAlive ∧
    (choosePool env gg g rng).2.1.teams = g.teams ∧
    (choosePool env gg g rng).2.1.dayState = g.dayState ∧
    (choosePool env gg g rng).2.1.dayNum = g.dayNum := by
  unfold choosePool
  by_cases h1 : (g.dayNum == 1) = true
  · rw [if_pos h1]
    exact ⟨rfl, rfl, rfl, rfl, rfl⟩
  · rw [if_neg h1]
    dsimp only
    repeat' split
    all_goals exact ⟨rfl, rfl, rfl, rfl, rfl⟩

/-- The user pool built at the start of the loop (the living filter of
the user list) satisfies the loop invariant. -/
theorem poolOk_filter (users : List Player) (hnd : UsersNodup users) :
    PoolOk users (users.filter (fun u => u.living)) := by
  constructor
  · exact List.Nodup.sublist (List.Sublist.map _ (List.filter_sublist _)) hnd
  · intro p hp
    have hm := List.mem_filter.mp hp
    exact ⟨by simpa using hm.2, firstById_of_nodup users p hnd hm.1⟩


/-- The state carried by a bleed-pass result. -/
def BleedRes.st : BleedRes → BleedSt
  | .ok s => s
  | .crash s => s

/-- Master invariant of the bleed pass: the counter tracks the living
count, player identities are preserved in order, the no-victors guard
keeps at least one player alive, a completed pass leaves nobody
bleeding, and a crashed pass still confines bleeding to the living. -/
theorem bleedGo_master (opts : Options) : ∀ (l : List Player) (st : BleedSt),
    st.numAlive = ((countLiving st.users + countLiving l : Nat) : Int) →
    (∀ u ∈ st.users, u.bleeding = false) →
    BleedLiving l →
    (bleedGo opts l st).st.numAlive
        = (countLiving (bleedGo opts l st).st.users : Int) ∧
    (bleedGo opts l st).st.users.map Player.id
        = st.users.map Player.id ++ l.map Player.id ∧
    (opts.allowNoVictors = false → 1 ≤ st.numAlive →
      1 ≤ (bleedGo opts l st).st.numAlive) ∧
    (∀ s, bleedGo opts l st = .ok s → ∀ u ∈ s.users, u.bleeding = false) ∧
    (∀ s, bleedGo opts l st = .crash s → BleedLiving s.users) := by
  intro l
  induction l with
  | nil =>
    intro st hinv hacc _
    rw [bleedGo]
    refine ⟨by simpa using hinv, by simp [BleedRes.st], fun _ h => h, ?_, ?_⟩
    · intro s hs u hu
      cases hs
      exact hacc u hu
    · intro s hs
      cases hs
  | cons u rest ih =>
    intro st hinv hacc hl
    have hlrest : BleedLiving rest := fun v hv => hl v (List.mem_cons_of_mem _ hv)
    by_cases hguard : (u.bleeding && u.living) = true
    · have huliv : u.living = true := by
        have h := hguard
        simp only [Bool.and_eq_true] at h
        exact h.2
      rw [bleedGo, if_pos hguard]
      rcases hq : randQ st.rng with ⟨q, rng1⟩
      dsimp only
      by_cases hkill : (JsNum.sampleLt q opts.probabilityOfBleedToDeath
          && (opts.allowNoVictors || decide (st.numAlive > 1))) = true
      · have hok : (opts.allowNoVictors || decide (st.numAlive > 1)) = true := by
          have h := hkill
          simp only [Bool.and_eq_true] at h
          exact h.2
        rw [if_pos hkill]
        have hinv' : (st.numAlive - 1 : Int)
            = ((countLiving (st.users ++ [{ u with living := false, bleeding := false, state := "dead", rank := st.numAlive }]) + countLiving rest : Nat) : Int) := by
          rw [countLiving_append]
          rw [countLiving_cons u rest, huliv] at hinv
          simp only [countLiving, List.countP_cons, List.countP_nil] at hinv ⊢
          simp at hinv ⊢
          omega
        have hacc' : ∀ v ∈ st.users ++ [{ u with living := false, bleeding := false, state := "dead", rank := st.numAlive }], v.bleeding = false := by
          intro v hv
          rcases List.mem_append.mp hv with h | h
          · exact hacc v h
          · rcases List.mem_singleton.mp h with rfl
            rfl
        by_cases hti : st.teams.findIdx (fun t => t.players.contains u.id) < st.teams.length
        · rw [dif_pos hti]
          have hrec : ∀ (T : List Team) (B : List Player),
              (bleedGo opts rest ⟨st.users ++ [{ u with living := false, bleeding := false, state := "dead", rank := st.numAlive }], T, st.numAlive - 1, B, st.recovered, rng1⟩).st.numAlive
                  = (countLiving (bleedGo opts rest ⟨st.users ++ [{ u with living := false, bleeding := false, state := "dead", rank := st.numAlive }], T, st.numAlive - 1, B, st.recovered, rng1⟩).st.users : Int) ∧
              (bleedGo opts rest ⟨st.users ++ [{ u with living := false, bleeding := false, state := "dead", rank := st.numAlive }], T, st.numAlive - 1, B, st.recovered, rng1⟩).st.users.map Player.id
                  = st.users.map Player.id ++ (u :: rest).map Player.id ∧
              (opts.allowNoVictors = false → 1 ≤ st.numAlive →
                1 ≤ (bleedGo opts rest ⟨st.users ++ [{ u with living := false, bleeding := false, state := "dead", rank := st.numAlive }], T, st.numAlive - 1, B, st.recovered, rng1⟩).st.numAlive) ∧
              (∀ s, bleedGo opts rest ⟨st.users ++ [{ u with living := false, bleeding := false, state := "dead", rank := st.numAlive }], T, st.numAlive - 1, B, st.recovered, rng1⟩ = .ok s →
                ∀ v ∈ s.users, v.bleeding = false) ∧
              (∀ s, bleedGo opts rest ⟨st.users ++ [{ u with living := false, bleeding := false, state := "dead", rank := st.numAlive }], T, st.numAlive - 1, B, st.recovered, rng1⟩ = .crash s →
                BleedLiving s.users) := by
            intro T B
            obtain ⟨c1, c2, c3, c4, c5⟩ := ih
              ⟨st.users ++ [{ u with living := false, bleeding := false, state := "dead", rank := st.numAlive }], T, st.numAlive - 1, B, st.recovered, rng1⟩
              hinv' hacc' hlrest
            refine ⟨c1, ?_, ?_, c4, c5⟩
            · rw [c2]
              simp
            · intro hnov hone
              refine c3 hnov ?_
              rw [hnov] at hok
              simp at hok
              show (1 : Int) ≤ st.numAlive - 1
              omega
          exact hrec _ _
        · rw [dif_neg hti]
          refine ⟨?_, ?_, ?_, ?_, ?_⟩
          · show st.numAlive - 1 = ((countLiving (st.users ++ [{ u with living := false, bleeding := false, state := "dead", rank := st.numAlive }] ++ rest) : Nat) : Int)
            rw [countLiving_append, countLiving_append]
            rw [countLiving_cons u rest, huliv] at hinv
            simp only [countLiving, List.countP_cons, List.countP_nil] at hinv ⊢
            simp at hinv ⊢
            omega
          · show (st.users ++ [{ u with living := false, bleeding := false, state := "dead", rank := st.numAlive }] ++ rest).map Player.id = st.users.map Player.id ++ (u :: rest).map Player.id
            simp
          · intro hnov _
            rw [hnov] at hok
            simp at hok
            show (1 : Int) ≤ st.numAlive - 1
            omega
          · intro s hs
            cases hs
          · intro s hs
            cases hs
            intro v hv hvb
            dsimp only at hv
            rcases List.mem_append.mp hv with h | h
            · rcases List.mem_append.mp h with h2 | h2
              · rw [hacc v h2] at hvb
                cases hvb
              · rcases List.mem_singleton.mp h2 with rfl
                cases hvb
            · exact hlrest v h hvb
      · rw [if_neg hkill]
        have hinv' : (st.numAlive : Int)
            = ((countLiving (st.users ++ [{ u with bleeding := false, state := "normal" }]) + countLiving rest : Nat) : Int) := by
          unfold countLiving at hinv ⊢
          simp only [List.countP_append, List.countP_cons, List.countP_nil] at hinv ⊢
          simp [huliv] at hinv ⊢
          omega
        have hacc' : ∀ v ∈ st.users ++ [{ u with bleeding := false, state := "normal" }], v.bleeding = false := by
          intro v hv
          rcases List.mem_append.mp hv with h | h
          · exact hacc v h
          · rcases List.mem_singleton.mp h with rfl
            rfl
        obtain ⟨c1, c2, c3, c4, c5⟩ := ih
          ⟨st.users ++ [{ u with bleeding := false, state := "normal" }], st.teams, st.numAlive, st.bled, st.recovered ++ [{ u with bleeding := false, state := "normal" }], rng1⟩
          hinv' hacc' hlrest
        refine ⟨c1, ?_, fun hnov hone => c3 hnov hone, c4, c5⟩
        rw [c2]
        simp
    · rw [bleedGo, if_neg hguard]
      have hub : u.bleeding = false := by
        cases hb : u.bleeding
        · rfl
        · have hlv := hl u (List.mem_cons_self u rest) hb
          rw [hb, hlv] at hguard
          cases hguard rfl
      have hinv' : (st.numAlive : Int)
          = ((countLiving (st.users ++ [u]) + countLiving rest : Nat) : Int) := by
        unfold countLiving at hinv ⊢
        simp only [List.countP_append, List.countP_cons, List.countP_nil] at hinv ⊢
        push_cast at hinv ⊢
        omega
      have hacc' : ∀ v ∈ st.users ++ [u], v.bleeding = false := by
        intro v hv
        rcases List.mem_append.mp hv with h | h
        · exact hacc v h
        · rcases List.mem_singleton.mp h with rfl
          exact hub
      obtain ⟨c1, c2, c3, c4, c5⟩ := ih
        ⟨st.users ++ [u], st.teams, st.numAlive, st.bled, st.recovered, st.rng⟩
        hinv' hacc' hlrest
      refine ⟨c1, ?_, fun hnov hone => c3 hnov hone, c4, c5⟩
      rw [c2]
      simp

/-- The bleed pass on a game: the alive counter and id multiset are
preserved, no-victors keeps a survivor, a completed pass leaves nobody
bleeding, and even the crashing pass keeps the invariants. -/
theorem bleedPhase_master (opts : Options) (g : Game) (rng : Rng)
    (hinv : AliveInv g) (hbl : BleedLiving g.includedUsers)
    (hnd : UsersNodup g.includedUsers) :
    AliveInv (bleedPhase opts g rng).game ∧
    UsersNodup (bleedPhase opts g rng).game.includedUsers ∧
    BleedLiving (bleedPhase opts g rng).game.includedUsers ∧
    (opts.allowNoVictors = false → 1 ≤ g.numAlive →
      1 ≤ (bleedPhase opts g rng).game.numAlive) ∧
    (∀ g' r', bleedPhase opts g rng = .ok g' r' →
      ∀ u ∈ g'.includedUsers, u.bleeding = false) := by
  have hinv0 : (⟨[], g.teams, g.numAlive, [], [], rng⟩ : BleedSt).numAlive
      = ((countLiving (⟨[], g.teams, g.numAlive, [], [], rng⟩ : BleedSt).users
          + countLiving g.includedUsers : Nat) : Int) := by
    show g.numAlive = ((countLiving [] + countLiving g.includedUsers : Nat) : Int)
    unfold AliveInv at hinv
    simp [countLiving]
    exact hinv
  have hacc0 : ∀ u ∈ (⟨[], g.teams, g.numAlive, [], [], rng⟩ : BleedSt).users,
      u.bleeding = false := by
    intro u hu
    cases hu
  obtain ⟨c1, c2, c3, c4, c5⟩ :=
    bleedGo_master opts g.includedUsers ⟨[], g.teams, g.numAlive, [], [], rng⟩
      hinv0 hacc0 hbl
  unfold bleedPhase
  rcases hgo : bleedGo opts g.includedUsers ⟨[], g.teams, g.numAlive, [], [], rng⟩
    with st | st
  · -- completed pass
    rw [hgo] at c1 c2 c3
    simp only [BleedRes.st] at c1 c2 c3
    have hclear : ∀ u ∈ st.users, u.bleeding = false := c4 st hgo
    have hmap : st.users.map Player.id = g.includedUsers.map Player.id := by
      rw [c2]
      simp
    dsimp only
    by_cases hrec : st.recovered.length > 0 <;>
      by_cases hbld : st.bled.length > 0 <;>
      [rw [if_pos hrec]; rw [if_pos hrec]; rw [if_neg hrec]; rw [if_neg hrec]] <;>
      (try dsimp only) <;>
      [rw [if_pos hbld]; rw [if_neg hbld]; rw [if_pos hbld]; rw [if_neg hbld]]
    all_goals
      refine ⟨c1, by show (st.users.map Player.id).Nodup; rw [hmap]; exact hnd,
        ?_, fun hnov hone => c3 hnov hone, ?_⟩
    all_goals try (intro u hu hb; rw [hclear u hu] at hb; cases hb)
    all_goals intro g' r' hg'
    all_goals cases hg'
    all_goals exact hclear
  · -- crashing pass
    rw [hgo] at c1 c2 c3
    simp only [BleedRes.st] at c1 c2 c3
    have hblv : BleedLiving st.users := c5 st hgo
    have hmap : st.users.map Player.id = g.includedUsers.map Player.id := by
      rw [c2]
      simp
    dsimp only
    refine ⟨c1, by show (st.users.map Player.id).Nodup; rw [hmap]; exact hnd,
      hblv, fun hnov hone => c3 hnov hone, ?_⟩
    intro g' r' hg'
    cases hg'

/-! ## `printDay`, `printEvent` and the `nextDay` composition -/

theorem countLiving_perm (l l' : List Player) (h : l.Perm l') :
    countLiving l = countLiving l' :=
  h.countP_eq _

theorem countLiving_insertionSort (r : Player → Player → Prop) [DecidableRel r]
    (l : List Player) : countLiving (List.insertionSort r l) = countLiving l :=
  countLiving_perm _ _ (List.perm_insertionSort r l)

/-- `printDay` under the alive-counter invariant: the source's own
assertion holds (no "Realtime alive count is incorrect!" log), the
invariant is preserved by the ranking sorts, the counter itself is
untouched and the day state is reset to 0. -/
theorem printDay_master (gg : GuildGame) (hinv : AliveInv gg.currentGame) :
    (printDay gg).2 = true ∧
    AliveInv (printDay gg).1.currentGame ∧
    (printDay gg).1.currentGame.numAlive = gg.currentGame.numAlive ∧
    (printDay gg).1.currentGame.dayState = 0 := by
  unfold AliveInv at hinv
  unfold printDay
  dsimp only
  refine ⟨by simp [hinv], ?_⟩
  repeat' split
  all_goals refine ⟨?_, rfl, rfl⟩
  all_goals unfold AliveInv
  all_goals dsimp only
  all_goals try simp only [sortUsersByStatus, countLiving_insertionSort]
  all_goals exact hinv

/-- `printEvent` preserves the alive-counter invariant in all three of
its branches. -/
theorem printEvent_master (gg : GuildGame) (hasInterval : Bool)
    (hinv : AliveInv gg.currentGame) :
    AliveInv (printEvent gg hasInterval).2.1.currentGame := by
  unfold printEvent
  dsimp only
  split
  · exact (printDay_master gg hinv).2.1
  · split
    · exact hinv
    · exact hinv

/-- The day trunk preserves the user invariants, respects the
no-victors floor and—when it reports `completed`—has cleared every
bleeding flag. -/
theorem dayTail_master (opts : Options) (evs : List GameEvent) (fuel : Nat)
    (g2 : Game) (pool : List Player) (rng2 : Rng) (gg : GuildGame) (hasInterval : Bool)
    (hinv : AliveInv g2) (hbl : BleedLiving g2.includedUsers)
    (hnd : UsersNodup g2.includedUsers) (hpool : PoolOk g2.includedUsers pool) :
    AliveInv (dayTail opts evs fuel g2 pool rng2 gg hasInterval).2.1.currentGame ∧
    UsersNodup (dayTail opts evs fuel g2 pool rng2 gg hasInterval).2.1.currentGame.includedUsers ∧
    BleedLiving (dayTail opts evs fuel g2 pool rng2 gg hasInterval).2.1.currentGame.includedUsers ∧
    (opts.allowNoVictors = false → 1 ≤ g2.numAlive →
      1 ≤ (dayTail opts evs fuel g2 pool rng2 gg hasInterval).2.1.currentGame.numAlive) ∧
    ((dayTail opts evs fuel g2 pool rng2 gg hasInterval).1 = .completed →
      ∀ u ∈ (dayTail opts evs fuel g2 pool rng2 gg hasInterval).2.1.currentGame.includedUsers,
        u.bleeding = false) := by
  obtain ⟨e1, e2, e3, e4⟩ := eventLoop_master opts evs fuel g2 pool 0 rng2 hinv hbl hpool hnd
  unfold dayTail
  generalize hl : eventLoop opts evs fuel g2 pool 0 rng2 = L
  rw [hl] at e1 e2 e3 e4
  cases L with
  | finished g3 rng3 =>
    simp only [LoopRes.game] at e1 e2 e3 e4
    dsimp only
    obtain ⟨b1, b2, b3, b4, b5⟩ := bleedPhase_master opts g3 rng3 e1 e2 e3
    generalize hb : bleedPhase opts g3 rng3 = B
    rw [hb] at b1 b2 b3 b4 b5
    cases B with
    | ok g4 rng4 =>
      simp only [PhaseRes.game] at b1 b2 b3 b4
      dsimp only
      refine ⟨b1, b2, b3, fun hnov hone => b4 hnov (e4 hnov hone), ?_⟩
      intro _ u hu
      exact b5 g4 rng4 rfl u hu
    | crash g4 rng4 =>
      simp only [PhaseRes.game] at b1 b2 b3 b4
      dsimp only
      refine ⟨b1, b2, b3, fun hnov hone => b4 hnov (e4 hnov hone), ?_⟩
      intro h
      cases h
  | noValid g3 rng3 =>
    simp only [LoopRes.game] at e1 e2 e3 e4
    dsimp only
    exact ⟨e1, e3, e2, e4, by intro h; cases h⟩
  | crashed g3 rng3 =>
    simp only [LoopRes.game] at e1 e2 e3 e4
    dsimp only
    exact ⟨e1, e3, e2, e4, by intro h; cases h⟩
  | outOfFuel g3 rng3 =>
    simp only [LoopRes.game] at e1 e2 e3 e4
    dsimp only
    exact ⟨e1, e3, e2, e4, by intro h; cases h⟩

/-- `nextDay` preserves the user invariants in every outcome, respects
the no-victors floor, and clears every bleeding flag on `completed`. -/
theorem nextDay_master (env : Env) (gg : GuildGame) (hasInterval : Bool)
    (rng : Rng) (fuel : Nat)
    (hinv : AliveInv gg.currentGame) (hbl : BleedLiving gg.currentGame.includedUsers)
    (hnd : UsersNodup gg.currentGame.includedUsers) :
    AliveInv (nextDay env gg hasInterval rng fuel).2.1.currentGame ∧
    UsersNodup (nextDay env gg hasInterval rng fuel).2.1.currentGame.includedUsers ∧
    BleedLiving (nextDay env gg hasInterval rng fuel).2.1.currentGame.includedUsers ∧
    (gg.options.allowNoVictors = false → 1 ≤ gg.currentGame.numAlive →
      1 ≤ (nextDay env gg hasInterval rng fuel).2.1.currentGame.numAlive) ∧
    ((nextDay env gg hasInterval rng fuel).1 = .completed →
      ∀ u ∈ (nextDay env gg hasInterval rng fuel).2.1.currentGame.includedUsers,
        u.bleeding = false) := by
  unfold nextDay
  by_cases hip : (!gg.currentGame.inProgress) = true
  · rw [if_pos hip]
    exact ⟨hinv, hnd, hbl, fun _ h => h, by intro h; cases h⟩
  rw [if_neg hip]
  by_cases hds : (gg.currentGame.dayState != 0) = true
  · rw [if_pos hds]
    by_cases hhi : hasInterval = true
    · rw [if_pos hhi]
      exact ⟨hinv, hnd, hbl, fun _ h => h, by intro h; cases h⟩
    · rw [if_neg hhi]
      by_cases h1 : (gg.currentGame.dayState == 1) = true
      · rw [if_pos h1]
        exact ⟨hinv, hnd, hbl, fun _ h => h, by intro h; cases h⟩
      · rw [if_neg h1]
        exact ⟨hinv, hnd, hbl, fun _ h => h, by intro h; cases h⟩
  rw [if_neg hds]
  dsimp only
  set g0 : Game := { gg.currentGame with dayState := 1, dayNum := gg.currentGame.dayNum + 1, dayEvents := [] } with hg0
  have hinv0 : AliveInv g0 := hinv
  have hbl0 : BleedLiving g0.includedUsers := hbl
  have hnd0 : UsersNodup g0.includedUsers := hnd
  have hnum0 : g0.numAlive = gg.currentGame.numAlive := rfl
  obtain ⟨r1, r2, r3, r4⟩ := resurrectPhase_master gg.options g0 rng hinv0 hbl0 hnd0
  generalize hres : resurrectPhase gg.options g0 rng = R
  rw [hres] at r1 r2 r3 r4
  cases R with
  | crash g1 rng1 =>
    simp only [PhaseRes.game] at r1 r2 r3 r4
    dsimp only
    exact ⟨r1, r3, r2, fun hnov hone => by rw [hnum0] at r4; omega, by intro h; cases h⟩
  | ok g1 rng1 =>
    simp only [PhaseRes.game] at r1 r2 r3 r4
    dsimp only
    obtain ⟨cp1, cp2, cp3, cp4, cp5⟩ := choosePool_pres env gg g1 rng1
    generalize hcp : choosePool env gg g1 rng1 = t
    rw [hcp] at cp1 cp2 cp3 cp4 cp5
    obtain ⟨choice, g2, rng2⟩ := t
    dsimp only at cp1 cp2 cp3 cp4 cp5
    have hinv2 : AliveInv g2 := by
      unfold AliveInv
      rw [cp1, cp2]
      exact r1
    have hbl2 : BleedLiving g2.includedUsers := by
      rw [cp1]
      exact r2
    have hnd2 : UsersNodup g2.includedUsers := by
      unfold UsersNodup
      rw [cp1]
      exact r3
    have hpool2 : PoolOk g2.includedUsers (g1.includedUsers.filter (fun u => u.living)) := by
      rw [cp1]
      exact poolOk_filter _ r3
    have hnum2 : g2.numAlive = g1.numAlive := cp2
    cases choice with
    | crashArena =>
      dsimp only
      exact ⟨hinv2, hnd2, hbl2,
        fun hnov hone => by rw [hnum0] at r4; rw [hnum2]; omega,
        by intro h; cases h⟩
    | bloodbath =>
      dsimp only
      obtain ⟨d1, d2, d3, d4, d5⟩ := dayTail_master gg.options
        (poolEvents env gg PoolChoice.bloodbath) fuel g2
        (g1.includedUsers.filter (fun u => u.living)) rng2 gg hasInterval
        hinv2 hbl2 hnd2 hpool2
      exact ⟨d1, d2, d3,
        fun hnov hone => d4 hnov (by rw [hnum0] at r4; rw [hnum2]; omega), d5⟩
    | player =>
      dsimp only
      obtain ⟨d1, d2, d3, d4, d5⟩ := dayTail_master gg.options
        (poolEvents env gg PoolChoice.player) fuel g2
        (g1.includedUsers.filter (fun u => u.living)) rng2 gg hasInterval
        hinv2 hbl2 hnd2 hpool2
      exact ⟨d1, d2, d3,
        fun hnov hone => d4 hnov (by rw [hnum0] at r4; rw [hnum2]; omega), d5⟩
    | arena outs =>
      dsimp only
      obtain ⟨d1, d2, d3, d4, d5⟩ := dayTail_master gg.options
        (poolEvents env gg (PoolChoice.arena outs)) fuel g2
        (g1.includedUsers.filter (fun u => u.living)) rng2 gg hasInterval
        hinv2 hbl2 hnd2 hpool2
      exact ⟨d1, d2, d3,
        fun hnov hone => d4 hnov (by rw [hnum0] at r4; rw [hnum2]; omega), d5⟩

/-! ## Abort-bound and reveal-exhaustion helpers -/

theorem selectChecks_not_abort (opts : Options) (g : Game) (pool : List Player)
    (eventTry : GameEvent) (numAttacker numVictim : Int) (rng2 : Rng) :
    ((selectChecks opts g pool eventTry numAttacker numVictim rng2).2).isAbort = false := by
  unfold selectChecks
  repeat' split
  all_goals rfl

theorem selectResolve_not_abort (opts : Options) (g : Game) (pool : List Player)
    (eventTry : GameEvent) (rng1 : Rng) (redrawFuel : Nat) :
    ((selectResolve opts g pool eventTry rng1 redrawFuel).2).isAbort = false := by
  unfold selectResolve
  split
  · rfl
  · exact selectChecks_not_abort _ _ _ _ _ _ _

/-- The loop aborts the day only once the rejection counter has passed
100: below the bound every drawn template is either rejected, accepted
or stuck re-drawing, never the fatal abort. -/
theorem selectStep_abort_bound (opts : Options) (g : Game) (pool : List Player)
    (eventPool : List GameEvent) (cnt : Nat) (rng : Rng) (redrawFuel : Nat)
    (teams' : List Team) (rng1 : Rng)
    (h : selectStep opts g pool eventPool cnt rng redrawFuel = (teams', .abort rng1)) :
    100 < cnt := by
  unfold selectStep at h
  rcases hfm : randFloorMul rng eventPool.length with ⟨ei, rngA⟩
  rw [hfm] at h
  dsimp only at h
  rcases hget : eventPool.get? ei with _ | ev
  · rw [hget] at h
    dsimp only at h
    simp at h
  · rw [hget] at h
    dsimp only at h
    by_cases hcnt : cnt > 100
    · exact hcnt
    · rw [if_neg hcnt] at h
      by_cases hbig : (((if ev.victim.count < 0 then -ev.victim.count else ev.victim.count)
          + (if ev.attacker.count < 0 then -ev.attacker.count else ev.attacker.count) : Int)
          > (pool.length : Int))
      · rw [if_pos hbig] at h
        simp at h
      · rw [if_neg hbig] at h
        have hna := selectResolve_not_abort opts g pool ev rngA redrawFuel
        rw [h] at hna
        simp [SelKind.isAbort] at hna

/-- A `NoValidEvent` day failure always hands back a game whose
`day.state` has been reset to 0. -/
theorem eventLoop_noValid_state (opts : Options) (eventPool : List GameEvent) :
    ∀ (fuel : Nat) (g : Game) (pool : List Player) (cnt : Nat) (rng : Rng)
      (g' : Game) (rng' : Rng),
    eventLoop opts eventPool fuel g pool cnt rng = .noValid g' rng' →
    g'.dayState = 0 := by
  intro fuel
  induction fuel with
  | zero =>
    intro g pool cnt rng g' rng' h
    rw [eventLoop] at h
    cases h
  | succ f ih =>
    intro g pool cnt rng g' rng' h
    rw [eventLoop] at h
    by_cases hemp : (pool.length == 0) = true
    · rw [if_pos hemp] at h
      cases h
    rw [if_neg hemp] at h
    rcases hsel : selectStep opts g pool eventPool (cnt + 1) rng (rng.length + 1)
      with ⟨teams', kind⟩
    rw [hsel] at h
    dsimp only at h
    cases kind with
    | reject rng1 =>
      dsimp only at h
      exact ih _ _ _ _ _ _ h
    | abort rng1 =>
      dsimp only at h
      cases h
      rfl
    | stuck rng1 =>
      dsimp only at h
      cases h
    | accept ev nv na rng1 =>
      dsimp only at h
      split at h
      · cases h
      · split at h
        · cases h
        · exact ih _ _ _ _ _ _ h

/-- `printDay` unconditionally resets `day.state` to 0. -/
theorem printDay_state0 (gg : GuildGame) : (printDay gg).1.currentGame.dayState = 0 := rfl

/-- A reveal call on a game whose `day.state` is 0 throws reading
`events[-2].icons` and mutates nothing. -/
theorem printEvent_at_state0 (gg : GuildGame) (b : Bool)
    (h0 : gg.currentGame.dayState = 0) :
    printEvent gg b = (.crashedUndefined, gg, b) := by
  unfold printEvent
  dsimp only
  rw [h0]
  rw [if_neg ?h1, if_neg ?h2]
  case h1 =>
    intro hcon
    simp only [beq_iff_eq] at hcon
    omega
  case h2 =>
    intro hcon
    simp only [Bool.and_eq_true, decide_eq_true_eq] at hcon
    omega

/-! ## The claims -/

/-- C1: for every game the global alive counter equals the number of
players whose `living` flag is true after each day simulation
(`nextDay`) and each reveal step (`printEvent`), given it held before
(with distinct ids and bleeding confined to the living); and `printDay`'s
own assertion of the same equality passes. -/
theorem C1_alive_counter_invariant (env : Env) (gg : GuildGame) (hasInterval : Bool)
    (rng : Rng) (fuel : Nat)
    (hinv : AliveInv gg.currentGame) (hbl : BleedLiving gg.currentGame.includedUsers)
    (hnd : UsersNodup gg.currentGame.includedUsers) :
    AliveInv (nextDay env gg hasInterval rng fuel).2.1.currentGame ∧
    AliveInv (printEvent gg hasInterval).2.1.currentGame ∧
    (printDay gg).2 = true :=
  ⟨(nextDay_master env gg hasInterval rng fuel hinv hbl hnd).1,
   printEvent_master gg hasInterval hinv,
   (printDay_master gg hinv).1⟩

/-- Closed instance of C1 on the one-player game. -/
theorem C1_witness :
    AliveInv gg0.currentGame ∧ BleedLiving gg0.currentGame.includedUsers ∧
    UsersNodup gg0.currentGame.includedUsers ∧
    (AliveInv (nextDay env0 gg0 false [] 10).2.1.currentGame ∧
     AliveInv (printEvent gg0 false).2.1.currentGame ∧
     (printDay gg0).2 = true) :=
  ⟨by unfold AliveInv; decide, by unfold BleedLiving; decide, by unfold UsersNodup; decide,
   C1_alive_counter_invariant env0 gg0 false [] 10 (by unfold AliveInv; decide)
     (by unfold BleedLiving; decide) (by unfold UsersNodup; decide)⟩

set_option maxRecDepth 100000 in
/-- C2: the selector's fatal abort can only fire once the rejection
counter has passed 100, a `NoValidEvent` day failure resets `day.state`
to 0, and the concrete hundred-rejection day keeps the kill applied by
its first accepted event (the dead player and the recorded event are not
rolled back). -/
theorem C2_hundred_rejections_noValidEvent :
    (∀ (opts : Options) (g : Game) (pool : List Player) (eventPool : List GameEvent)
       (cnt : Nat) (rng : Rng) (redrawFuel : Nat) (teams' : List Team) (rng1 : Rng),
       selectStep opts g pool eventPool cnt rng redrawFuel = (teams', .abort rng1) →
       100 < cnt) ∧
    (∀ (opts : Options) (eventPool : List GameEvent) (fuel : Nat) (g : Game)
       (pool : List Player) (cnt : Nat) (rng : Rng) (g' : Game) (rng' : Rng),
       eventLoop opts eventPool fuel g pool cnt rng = .noValid g' rng' →
       g'.dayState = 0) ∧
    (nextDay env2 gg2 false c2rng 300).1 = NextDayRes.noValidEvent ∧
    (nextDay env2 gg2 false c2rng 300).2.1.currentGame.dayState = 0 ∧
    (nextDay env2 gg2 false c2rng 300).2.1.currentGame.includedUsers.map Player.living
      = [false, true] ∧
    (nextDay env2 gg2 false c2rng 300).2.1.currentGame.dayEvents.length = 1 :=
  ⟨fun opts g pool eventPool cnt rng redrawFuel teams' rng1 h =>
     selectStep_abort_bound opts g pool eventPool cnt rng redrawFuel teams' rng1 h,
   fun opts eventPool fuel g pool cnt rng g' rng' h =>
     eventLoop_noValid_state opts eventPool fuel g pool cnt rng g' rng' h,
   by decide, by decide, by decide, by decide⟩

/-- C3: with "allow no victors" off and at least one player living at
the start of a day, the day simulation (event loop plus bleed pass)
never reduces the living count to zero. -/
theorem C3_no_victors_floor (env : Env) (gg : GuildGame) (hasInterval : Bool)
    (rng : Rng) (fuel : Nat)
    (hinv : AliveInv gg.currentGame) (hbl : BleedLiving gg.currentGame.includedUsers)
    (hnd : UsersNodup gg.currentGame.includedUsers)
    (hnov : gg.options.allowNoVictors = false)
    (hone : 1 ≤ gg.currentGame.numAlive) :
    1 ≤ (nextDay env gg hasInterval rng fuel).2.1.currentGame.numAlive :=
  (nextDay_master env gg hasInterval rng fuel hinv hbl hnd).2.2.2.1 hnov hone

/-- Closed instance of C3 on the one-player game with no-victors off. -/
theorem C3_witness :
    AliveInv ggNoVic.currentGame ∧ BleedLiving ggNoVic.currentGame.includedUsers ∧
    UsersNodup ggNoVic.currentGame.includedUsers ∧
    ggNoVic.options.allowNoVictors = false ∧ 1 ≤ ggNoVic.currentGame.numAlive ∧
    1 ≤ (nextDay env0 ggNoVic false [] 3).2.1.currentGame.numAlive :=
  ⟨by unfold AliveInv; decide, by unfold BleedLiving; decide, by unfold UsersNodup; decide,
   by decide, by decide,
   C3_no_victors_floor env0 ggNoVic false [] 3 (by unfold AliveInv; decide)
     (by unfold BleedLiving; decide) (by unfold UsersNodup; decide) (by decide) (by decide)⟩

/-- C4: calling `nextDay` while `day.state != 0` never re-runs the event
loop and leaves the game and random stream untouched; it replies with an
error when an interval is registered or the state is 1, but with the
state at 2 or beyond and no interval it silently restarts the reveal
instead of reporting a failure. -/
theorem C4_start_day_not_reentrant (env : Env) (gg : GuildGame) (hasInterval : Bool)
    (rng : Rng) (fuel : Nat)
    (hip : gg.currentGame.inProgress = true)
    (hds : gg.currentGame.dayState ≠ 0) :
    (nextDay env gg hasInterval rng fuel).2.1 = gg ∧
    (nextDay env gg hasInterval rng fuel).2.2.2 = rng ∧
    (hasInterval = true →
      (nextDay env gg hasInterval rng fuel).1 = NextDayRes.alreadySimulating) ∧
    (hasInterval = false → gg.currentGame.dayState = 1 →
      (nextDay env gg hasInterval rng fuel).1 = NextDayRes.maybeCrashed) ∧
    (hasInterval = false → gg.currentGame.dayState ≠ 1 →
      (nextDay env gg hasInterval rng fuel).1 = NextDayRes.resumedReveal ∧
      (nextDay env gg hasInterval rng fuel).2.2.1 = true) := by
  unfold nextDay
  rw [if_neg (by simp [hip]), if_pos (by simpa using hds)]
  by_cases hhi : hasInterval = true
  · rw [if_pos hhi]
    refine ⟨rfl, rfl, fun _ => rfl, ?_, ?_⟩
    · intro hfalse _
      rw [hhi] at hfalse
      cases hfalse
    · intro hfalse _
      rw [hhi] at hfalse
      cases hfalse
  · rw [if_neg hhi]
    by_cases h1 : (gg.currentGame.dayState == 1) = true
    · rw [if_pos h1]
      refine ⟨rfl, rfl, fun hit => absurd hit hhi, fun _ _ => rfl, ?_⟩
      intro _ hne1
      exfalso
      apply hne1
      simpa using h1
    · rw [if_neg h1]
      refine ⟨rfl, rfl, fun hit => absurd hit hhi, ?_, fun _ _ => ⟨rfl, rfl⟩⟩
      intro _ his1
      exfalso
      apply h1
      simp [his1]

/-- The state-2, no-interval call silently resumes the reveal: no error
reply, the interval is re-registered, the game is untouched. -/
theorem C4_counterexample :
    (nextDay env0 ggState2 false [] 1).1 = NextDayRes.resumedReveal ∧
    (nextDay env0 ggState2 false [] 1).1 ≠ NextDayRes.alreadySimulating ∧
    (nextDay env0 ggState2 false [] 1).1 ≠ NextDayRes.maybeCrashed ∧
    (nextDay env0 ggState2 false [] 1).2.2.1 = true ∧
    (nextDay env0 ggState2 false [] 1).2.1 = ggState2 := by decide

/-- Closed instance of C4 on the mid-reveal game with an interval. -/
theorem C4_witness :
    ggState2.currentGame.inProgress = true ∧ ggState2.currentGame.dayState ≠ 0 ∧
    ((nextDay env0 ggState2 true [] 1).2.1 = ggState2 ∧
     (nextDay env0 ggState2 true [] 1).2.2.2 = [] ∧
     (true = true → (nextDay env0 ggState2 true [] 1).1 = NextDayRes.alreadySimulating) ∧
     (true = false → ggState2.currentGame.dayState = 1 →
       (nextDay env0 ggState2 true [] 1).1 = NextDayRes.maybeCrashed) ∧
     (true = false → ggState2.currentGame.dayState ≠ 1 →
       (nextDay env0 ggState2 true [] 1).1 = NextDayRes.resumedReveal ∧
       (nextDay env0 ggState2 true [] 1).2.2.1 = true)) :=
  ⟨by decide, by decide,
   C4_start_day_not_reentrant env0 ggState2 true [] 1 (by decide) (by decide)⟩

/-- C5: every event the selector accepts has non-negative resolved
participant counts whose total fits the current living pool. -/
theorem C5_accepted_event_fits_pool (opts : Options) (g : Game) (pool : List Player)
    (eventPool : List GameEvent) (cnt : Nat) (rng : Rng) (redrawFuel : Nat)
    (teams' : List Team) (ev : GameEvent) (nv na : Int) (rng1 : Rng)
    (h : selectStep opts g pool eventPool cnt rng redrawFuel
      = (teams', SelKind.accept ev nv na rng1)) :
    0 ≤ nv ∧ 0 ≤ na ∧ nv + na ≤ (pool.length : Int) := by
  obtain ⟨h1, h2, h3, _, _⟩ :=
    selectStep_accept opts g pool eventPool cnt rng redrawFuel teams' ev nv na rng1 h
  exact ⟨h1, h2, h3⟩

/-- Closed instance of C5 on a concrete accepted kill. -/
theorem C5_witness :
    selectStep defaultOptions g2fix [pA, pB] [evKill] 1 [] 1
      = ([], SelKind.accept evKill 1 0 []) ∧
    (0 ≤ (1 : Int) ∧ 0 ≤ (0 : Int) ∧
      (1 : Int) + 0 ≤ (([pA, pB] : List Player).length : Int)) :=
  ⟨by decide,
   C5_accepted_event_fits_pool defaultOptions g2fix [pA, pB] [evKill] 1 [] 1
     [] evKill 1 0 [] (by decide)⟩

/-- C6: the "thrives" outcome (`restoreUser`) sets the target's state to
"normal" and adds the kills but does not clear `bleeding`: the inner
`effectUser` raises the flag on a target that was in state "wounded" and
nothing resets it, so a previously wounded player comes out bleeding. -/
theorem C6_thrives_keeps_wounded_bleeding (users : List Player) (tid : Nat)
    (kills : Int) (u : Player) (hu : firstById users tid = some u) :
    restoreUser users tid kills =
      some (users.set (users.findIdx (fun v => v.id == tid))
        { u with bleeding := if u.state == "wounded" then true else u.bleeding,
                 state := "normal", kills := u.kills + kills }) :=
  restoreUser_spec users tid kills u hu

/-- A wounded, non-bleeding player is bleeding after "thrives". -/
theorem C6_counterexample :
    pW.state = "wounded" ∧ pW.bleeding = false ∧
    restoreUser [pW] 3 0 = some [{ pW with bleeding := true, state := "normal" }] := by
  decide

/-- Closed instance of C6 on the wounded player. -/
theorem C6_witness :
    firstById [pW] 3 = some pW ∧
    restoreUser [pW] 3 0 =
      some (([pW] : List Player).set (([pW] : List Player).findIdx (fun v => v.id == 3))
        { pW with bleeding := if pW.state == "wounded" then true else pW.bleeding,
                  state := "normal", kills := pW.kills + 0 }) :=
  ⟨by decide, C6_thrives_keeps_wounded_bleeding [pW] 3 0 pW (by decide)⟩

/-- C7: the day's template set is the bloodbath set exactly when the
already-incremented day number equals 1 (so the first simulated day has
`day.num` 1, not 0), and a later day without an arena draw - the option
disabled, or enabled with a failing probability draw - uses the player
set. -/
theorem C7_bloodbath_on_day_one (env : Env) (gg : GuildGame) (g : Game) (rng : Rng) :
    ((choosePool env gg g rng).1 = PoolChoice.bloodbath ↔ g.dayNum = 1) ∧
    (g.dayNum ≠ 1 →
      (gg.options.arenaEvents = false ∨
        JsNum.sampleLt (randQ rng).1 gg.options.probabilityOfArenaEvent = false) →
      (choosePool env gg g rng).1 = PoolChoice.player) := by
  constructor
  · unfold choosePool
    by_cases h1 : (g.dayNum == 1) = true
    · rw [if_pos h1]
      simp only [beq_iff_eq] at h1
      exact ⟨fun _ => h1, fun _ => rfl⟩
    · rw [if_neg h1]
      dsimp only
      constructor
      · intro hcon
        exfalso
        revert hcon
        repeat' split
        all_goals intro hcon
        all_goals simp at hcon
      · intro h2
        exfalso
        apply h1
        simp [h2]
  · intro hne hno
    unfold choosePool
    rw [if_neg (by simpa using hne)]
    dsimp only
    by_cases hae : gg.options.arenaEvents = true
    · rw [if_pos hae]
      dsimp only
      rcases hno with hobf | hdraw
      · rw [hae] at hobf
        cases hobf
      · rw [hdraw]
        rw [if_neg (by simp : ¬(false = true))]
    · rw [if_neg hae]
      dsimp only
      rw [if_neg (by simp : ¬(false = true))]

/-- A day numbered 0 does not use the bloodbath set; the day numbered 1
does. -/
theorem C7_counterexample :
    (choosePool env2 gg2 { g2fix with dayNum := 0 } []).1 ≠ PoolChoice.bloodbath ∧
    (choosePool env2 gg2 { g2fix with dayNum := 1 } []).1 = PoolChoice.bloodbath := by
  decide

/-- C8: setting the numeric option "teamSize" to the non-numeric string
"abc" is not rejected: the reply is the success reply reporting the new
value NaN and the stored option becomes NaN, because the source's
`typeof (value = Number(value)) !== 'number'` guard is never true. -/
theorem C8_nan_option_stored :
    (toggleOpt ggIdle (some "teamSize") (some "abc")).1
      = OptReply.setNumber "teamSize" (JsNum.num (mkRat 0 1)) JsNum.nan true ∧
    (toggleOpt ggIdle (some "teamSize") (some "abc")).2.options.teamSize = JsNum.nan ∧
    (toggleOpt ggIdle (some "teamSize") (some "abc")).1
      ≠ OptReply.invalidNumberValue "teamSize" := by
  decide

/-- C9: once `day.state - 2` has reached the buffered event count, the
reveal step is not idempotent: the first call finishes the day (running
`printDay`, which resets the state to 0 and clears the interval), and
every further call returns the crash outcome instead of the same "no
more events" result. -/
theorem C9_reveal_exhaustion_not_idempotent (gg : GuildGame) (b : Bool)
    (hexh : (gg.currentGame.dayState : Int) - 2
      = (gg.currentGame.dayEvents.length : Int)) :
    (printEvent gg b).1 = RevealRes.finishedDay ∧
    (printEvent gg b).2.1 = (printDay gg).1 ∧
    (printEvent gg b).2.2 = false ∧
    (∀ b2, printEvent (printEvent gg b).2.1 b2
      = (RevealRes.crashedUndefined, (printEvent gg b).2.1, b2)) := by
  have hfin : printEvent gg b = (.finishedDay, (printDay gg).1, false) := by
    unfold printEvent
    dsimp only
    rw [if_pos (by simpa using hexh)]
  refine ⟨by rw [hfin], by rw [hfin], by rw [hfin], ?_⟩
  intro b2
  rw [hfin]
  exact printEvent_at_state0 (printDay gg).1 b2 (printDay_state0 gg)

/-- The exhausted reveal mutates the game and its second call crashes
rather than repeating "no more events". -/
theorem C9_counterexample :
    (printEvent ggState2 true).1 = RevealRes.finishedDay ∧
    (printEvent ggState2 true).2.1.currentGame.dayState = 0 ∧
    (printEvent (printEvent ggState2 true).2.1 true).1 = RevealRes.crashedUndefined ∧
    (printEvent ggState2 true).2.1 ≠ ggState2 := by
  decide

/-- Closed instance of C9 on the exhausted one-player game. -/
theorem C9_witness :
    ((ggState2.currentGame.dayState : Int) - 2
      = (ggState2.currentGame.dayEvents.length : Int)) ∧
    ((printEvent ggState2 false).1 = RevealRes.finishedDay ∧
     (printEvent ggState2 false).2.1 = (printDay ggState2).1 ∧
     (printEvent ggState2 false).2.2 = false ∧
     (∀ b2, printEvent (printEvent ggState2 false).2.1 b2
       = (RevealRes.crashedUndefined, (printEvent ggState2 false).2.1, b2))) :=
  ⟨by decide, C9_reveal_exhaustion_not_idempotent ggState2 false (by decide)⟩

/-- C10: a day simulation that reports `completed` leaves every player
with `bleeding = false`: the bleed pass clears the flag in both of its
branches and kills clear it too. -/
theorem C10_completed_day_clears_bleeding (env : Env) (gg : GuildGame)
    (hasInterval : Bool) (rng : Rng) (fuel : Nat)
    (hinv : AliveInv gg.currentGame) (hbl : BleedLiving gg.currentGame.includedUsers)
    (hnd : UsersNodup gg.currentGame.includedUsers)
    (hdone : (nextDay env gg hasInterval rng fuel).1 = NextDayRes.completed) :
    ∀ u ∈ (nextDay env gg hasInterval rng fuel).2.1.currentGame.includedUsers,
      u.bleeding = false :=
  (nextDay_master env gg hasInterval rng fuel hinv hbl hnd).2.2.2.2 hdone

/-- Closed instance of C10 on the one-player game. -/
theorem C10_witness :
    AliveInv gg0.currentGame ∧ BleedLiving gg0.currentGame.includedUsers ∧
    UsersNodup gg0.currentGame.includedUsers ∧
    (nextDay env0 gg0 false [] 10).1 = NextDayRes.completed ∧
    ∀ u ∈ (nextDay env0 gg0 false [] 10).2.1.currentGame.includedUsers,
      u.bleeding = false :=
  ⟨by unfold AliveInv; decide, by unfold BleedLiving; decide, by unfold UsersNodup; decide,
   by decide,
   C10_completed_day_clears_bleeding env0 gg0 false [] 10 (by unfold AliveInv; decide)
     (by unfold BleedLiving; decide) (by unfold UsersNodup; decide) (by decide)⟩
